import Mathlib

/-!
# ZeraVM: class-file reader and bytecode interpreter (`src/main.cpp`)

A shallow embedding of the program, followed by theorems about it.

Conventions of the embedding

* The host is little-endian: an integer field lives in memory as its bytes,
  least significant first (`toBytes` / `ofBytes`).  A field filled by
  `stream.read` holds the wire bytes in wire order.
* A byte is a `Nat`; theorems assume `b < 256` where the arithmetic needs it.
* A `std::string` is a `String` holding one character per byte.
* A pointer into an array is an index, or the list of cells that start at it.
* `JavaExecutor::run` calls itself through `step`; `JavaExecutor.run` takes a
  bound on the depth of these calls and ends in `Fault.outOfFuel` beyond it.
* The process state (standard output, standard error) is threaded explicitly.
  A computation ends in `Res.ok` or in `Res.fail` with the state reached:
  `Fault.exit c` is a call of `exit(c)`, `Fault.undefined` is an access the C++
  code performs without a check and that has no defined result (index outside an
  array, null pointer, a union member or a derived class that is not the one
  stored, a field left unwritten by a short read), `Fault.abort` is an uncaught
  C++ exception, `Fault.outOfFuel` is the embedding running out of fuel.
* Allocation always succeeds; destructors and `delete` are not modelled.
-/

namespace ZeraVM

/-! ## Host integers and `swapEndianness` -/

/-- Memory image of an unsigned integer of `size` bytes on the host. -/
def toBytes : Nat → Nat → List Nat
  | 0, _ => []
  | n + 1, x => (x % 256) :: toBytes n (x / 256)

/-- Value of an unsigned integer whose memory image is the given bytes. -/
def ofBytes : List Nat → Nat
  | [] => 0
  | b :: bs => b + 256 * ofBytes bs

/-- Template `swapEndianness<T>` with `sizeof(T) = size`:
`dest[i] = src[sizeof(T) - i - 1]`. -/
def swapEndianness (size : Nat) (value : Nat) : Nat :=
  let src := toBytes size value
  ofBytes ((List.range size).map (fun i => src.getD (size - i - 1) 0))

/-! ## Outcomes -/

/-- Ways in which a computation stops without returning. -/
inductive Fault where
  | exit (code : Nat)
  | undefined
  | abort
  | outOfFuel
  deriving DecidableEq, Repr

/-- Outcome of a computation over a state `σ`. -/
inductive Res (σ α : Type) where
  | ok (a : α) (s : σ)
  | fail (f : Fault) (s : σ)
  deriving DecidableEq, Repr

/-- Computations over a state `σ` that may stop with a `Fault`. -/
def M (σ α : Type) : Type := σ → Res σ α

/-- Run a computation from a state. -/
def M.run {σ α : Type} (x : M σ α) (s : σ) : Res σ α := x s

/-- Sequencing: a fault ends the computation. -/
def M.bind {σ α β : Type} (x : M σ α) (f : α → M σ β) : M σ β :=
  fun s => match x s with
    | Res.ok a s1 => f a s1
    | Res.fail e s1 => Res.fail e s1

instance {σ : Type} : Monad (M σ) where
  pure a := fun s => Res.ok a s
  bind := M.bind

/-- Stop with a fault. -/
def raise {σ α : Type} (f : Fault) : M σ α := fun s => Res.fail f s

/-- Unchecked access: defined only when the value is there. -/
def orUndefined {σ α : Type} : Option α → M σ α
  | some a => pure a
  | none => raise Fault.undefined

/-- Array subscript `xs[i]` with a C `int` index. -/
def subscript {α : Type} (xs : List α) : Int → Option α
  | Int.ofNat n => xs[n]?
  | Int.negSucc _ => none

/-! ## Data model -/

/-- A `std::string`. -/
abbrev Text := String

/-- One `char` of a `std::string`. -/
def byteChar (b : Nat) : Char := Char.ofNat b

/-- Struct `JavaClassHeader1` (packed, 10 bytes). -/
structure JavaClassHeader1 where
  magic : Nat
  minor : Nat
  major : Nat
  constantPoolCount : Nat
  deriving DecidableEq, Repr

/-- Struct `JavaClassHeader2` (packed, 8 bytes). -/
structure JavaClassHeader2 where
  access_flags : Nat
  this_class : Nat
  super_class : Nat
  interfaces_count : Nat
  deriving DecidableEq, Repr

/-- Enum `ConstantPoolTypes`. -/
def ConstantPoolTypes.Utf8 : Nat := 1
def ConstantPoolTypes.Class : Nat := 7
def ConstantPoolTypes.Fieldref : Nat := 9
def ConstantPoolTypes.Methodref : Nat := 10
def ConstantPoolTypes.InterfaceMethodref : Nat := 11
def ConstantPoolTypes.String : Nat := 8
def ConstantPoolTypes.Integer : Nat := 3
def ConstantPoolTypes.Float : Nat := 4
def ConstantPoolTypes.Long : Nat := 5
def ConstantPoolTypes.Double : Nat := 6
def ConstantPoolTypes.NameAndType : Nat := 12
def ConstantPoolTypes.MethodHandle : Nat := 15
def ConstantPoolTypes.MethodType : Nat := 16
def ConstantPoolTypes.InvokeDynamic : Nat := 18

/-- The anonymous union of `ConstantPoolEntry`: the member that was written. -/
inductive Payload where
  | Class (name_index : Nat)
  | Reference (class_index : Nat) (name_and_type_index : Nat)
  | String (string_index : Nat)
  | Numeric (number_bytes : Nat)
  | LongNumeric (low_number_bytes : Nat) (high_number_bytes : Nat)
  | NameAndType (name_idx : Nat) (descriptor_idx : Nat)
  | Utf8 (length : Nat) (bytes : Text)
  deriving DecidableEq, Repr

/-- Struct `ConstantPoolEntry`: a tag and the union. -/
structure ConstantPoolEntry where
  tag : Nat
  u : Payload
  deriving DecidableEq, Repr

/-- Member access `entry.Class.name_index`. -/
def ConstantPoolEntry.Class_name_index (e : ConstantPoolEntry) : Option Nat :=
  match e.u with
  | Payload.Class n => some n
  | _ => none

/-- Member access `entry.Reference.class_index`. -/
def ConstantPoolEntry.Reference_class_index (e : ConstantPoolEntry) : Option Nat :=
  match e.u with
  | Payload.Reference c _ => some c
  | _ => none

/-- Member access `entry.Reference.name_and_type_index`. -/
def ConstantPoolEntry.Reference_name_and_type_index (e : ConstantPoolEntry) : Option Nat :=
  match e.u with
  | Payload.Reference _ n => some n
  | _ => none

/-- Member access `entry.String.string_index`. -/
def ConstantPoolEntry.String_string_index (e : ConstantPoolEntry) : Option Nat :=
  match e.u with
  | Payload.String n => some n
  | _ => none

/-- Member access `entry.NameAndType.name_idx`. -/
def ConstantPoolEntry.NameAndType_name_idx (e : ConstantPoolEntry) : Option Nat :=
  match e.u with
  | Payload.NameAndType n _ => some n
  | _ => none

/-- Member access `entry.NameAndType.descriptor_idx`. -/
def ConstantPoolEntry.NameAndType_descriptor_idx (e : ConstantPoolEntry) : Option Nat :=
  match e.u with
  | Payload.NameAndType _ d => some d
  | _ => none

/-- Member access `*entry.Utf8.bytes`. -/
def ConstantPoolEntry.Utf8_bytes (e : ConstantPoolEntry) : Option Text :=
  match e.u with
  | Payload.Utf8 _ t => some t
  | _ => none

/-- Member access `entry.Utf8.length`. -/
def ConstantPoolEntry.Utf8_length (e : ConstantPoolEntry) : Option Nat :=
  match e.u with
  | Payload.Utf8 l _ => some l
  | _ => none

/-- Class `ConstantPool`: the array `entries` of `constantPoolCount - 1` cells. -/
structure ConstantPool where
  entries : List ConstantPoolEntry
  deriving DecidableEq, Repr

/-- Struct `AttributeInfo`; `info` holds the bytes that were read into the buffer. -/
structure AttributeInfo where
  attribute_name_index : Nat
  attribute_length : Nat
  info : List Nat
  deriving DecidableEq, Repr

/-- Struct `FieldEntry`. -/
structure FieldEntry where
  access_flags : Nat
  name_index : Nat
  descriptor_index : Nat
  attributes_count : Nat
  attributes : List AttributeInfo
  deriving DecidableEq, Repr

/-- Struct `MethodEntry`. -/
structure MethodEntry where
  access_flags : Nat
  name_index : Nat
  descriptor_index : Nat
  attributes_count : Nat
  attributes : List AttributeInfo
  deriving DecidableEq, Repr

/-- Class `JavaClassFile`.  `const_pool = none` is the null pointer and
`header2 = none` a struct that was never written. -/
structure JavaClassFile where
  ok : Bool
  header1 : JavaClassHeader1
  header2 : Option JavaClassHeader2
  const_pool : Option ConstantPool
  interfaces : List Nat
  fields_count : Nat
  fields : List FieldEntry
  methods_count : Nat
  methods : List MethodEntry
  attributes_count : Nat
  attributes : List AttributeInfo
  deriving DecidableEq, Repr

/-- Struct `CodeAttribute` (packed, 8 bytes), a view of the start of an
attribute buffer. -/
structure CodeAttribute where
  max_stack : Nat
  max_locals : Nat
  code_length : Nat
  deriving DecidableEq, Repr

/-- Enum `JavaOpCodes`. -/
def GETSTATIC : Nat := 0xB2
def SIPUSH : Nat := 0x11
def LDC : Nat := 0x12
def ILOAD_1 : Nat := 0x1b
def INVOKEVIRTUAL : Nat := 0xB6
def INVOKESTATIC : Nat := 0xB8
def RETURN : Nat := 0xB1

/-- Enum `ActionID`. -/
inductive ActionID where
  | STATIC
  | CONSTANT
  deriving DecidableEq, Repr

/-- Struct `Action` and its derived structs; the constructor is the dynamic type. -/
inductive Action where
  | StaticAction (id : ActionID) (class_name : Text) (name : Text)
  | ConstantAction (id : ActionID) (entry : ConstantPoolEntry)
  | ValueAction (id : ActionID) (entry : Int)
  deriving DecidableEq, Repr

/-! ## The input stream -/

/-- An `ifstream`: the bytes not yet extracted and the number extracted so far.
A stream that failed to open extracts nothing, like an empty one. -/
structure ifstream where
  rest : List Nat
  consumed : Nat
  deriving DecidableEq, Repr

/-- Process state while the class file is being constructed. -/
structure Reader where
  stream : ifstream
  cout : Text
  cerr : Text
  deriving DecidableEq, Repr

/-- Call `stream.read(buf, n)`: extracts `n` bytes, or what is left. -/
def readBytes (n : Nat) : M Reader (List Nat) := fun r =>
  Res.ok (r.stream.rest.take n)
    { r with stream :=
        { rest := r.stream.rest.drop n
          consumed := r.stream.consumed + (r.stream.rest.take n).length } }

/-- Call `stream.read` into an object of `n` bytes whose fields the code goes on
to evaluate: after a short read they are indeterminate. -/
def readObject (n : Nat) : M Reader (List Nat) := do
  let got ← readBytes n
  if got.length = n then pure got else raise Fault.undefined

/-- Write to standard error during construction. -/
def Reader.printErr (t : Text) : M Reader Unit := fun r =>
  Res.ok () { r with cerr := r.cerr ++ t }

/-- Write to standard output during construction. -/
def Reader.print (t : Text) : M Reader Unit := fun r =>
  Res.ok () { r with cout := r.cout ++ t }

/-! ## Constant pool -/

/-- The loop of the Utf8 branch of `ConstantPoolEntry::read`: `tmp` is declared
before the loop and keeps its value when a read extracts nothing. -/
def readUtf8Chars : Nat → Option Nat → Text → M Reader Text
  | 0, _, acc => pure acc
  | n + 1, tmp, acc => do
    let got ← readBytes 1
    let tmp1 := match got with
      | b :: _ => some b
      | [] => tmp
    match tmp1 with
    | some b => readUtf8Chars n tmp1 (acc.push (byteChar b))
    | none => raise Fault.undefined

/-- Method `ConstantPoolEntry::read`. -/
def ConstantPoolEntry.read : M Reader ConstantPoolEntry := do
  let tagBytes ← readObject 1
  let tag := ofBytes tagBytes
  if tag = ConstantPoolTypes.Methodref then
    let buf ← readObject 4
    pure { tag := tag
           u := Payload.Reference (swapEndianness 2 (ofBytes (buf.take 2)))
                  (swapEndianness 2 (ofBytes ((buf.drop 2).take 2))) }
  else if tag = ConstantPoolTypes.Class then
    let buf ← readObject 2
    pure { tag := tag, u := Payload.Class (swapEndianness 2 (ofBytes buf)) }
  else if tag = ConstantPoolTypes.NameAndType then
    let buf ← readObject 4
    pure { tag := tag
           u := Payload.NameAndType (swapEndianness 2 (ofBytes (buf.take 2)))
                  (swapEndianness 2 (ofBytes ((buf.drop 2).take 2))) }
  else if tag = ConstantPoolTypes.Utf8 then
    let buf ← readObject 2
    let length := swapEndianness 2 (ofBytes buf)
    let bytes ← readUtf8Chars length none ""
    pure { tag := tag, u := Payload.Utf8 length bytes }
  else if tag = ConstantPoolTypes.Fieldref then
    let buf ← readObject 4
    pure { tag := tag
           u := Payload.Reference (swapEndianness 2 (ofBytes (buf.take 2)))
                  (swapEndianness 2 (ofBytes ((buf.drop 2).take 2))) }
  else if tag = ConstantPoolTypes.String then
    let buf ← readObject 2
    pure { tag := tag, u := Payload.String (swapEndianness 2 (ofBytes buf)) }
  else do
    Reader.printErr ("Error: Unknown constant pool element with tag: " ++ Nat.repr tag ++ "\n")
    raise (Fault.exit 1)

/-- The loop of the `ConstantPool` constructor: `entries[i].read(*stream)`. -/
def readEntries : Nat → M Reader (List ConstantPoolEntry)
  | 0 => pure []
  | n + 1 => do
    let e ← ConstantPoolEntry.read
    let es ← readEntries n
    pure (e :: es)

/-- Constructor `ConstantPool::ConstantPool`.  With `constantPoolCount = 0` the
array size `constantPoolCount - 1` is negative and `new[]` throws. -/
def ConstantPool.new (header : JavaClassHeader1) : M Reader ConstantPool :=
  if header.constantPoolCount = 0 then raise Fault.abort
  else do
    let es ← readEntries (header.constantPoolCount - 1)
    pure { entries := es }

/-- Method `ConstantPool::get_name_by_index`: `entries[idx].Utf8.bytes`. -/
def ConstantPool.get_name_by_index (pool : ConstantPool) (idx : Nat) : Option Text :=
  match subscript pool.entries (Int.ofNat idx) with
  | some e => e.Utf8_bytes
  | none => none

/-- Printing a pool entry, `operator <<` of `ConstantPoolEntry`. -/
def ConstantPoolEntry.show (info : ConstantPoolEntry) : Option Text :=
  let head : Text := "<ConstantPoolEntry = TAG: " ++ Nat.repr info.tag ++ "; "
  if info.tag = ConstantPoolTypes.Fieldref then some (head ++ "Field reference" ++ ">")
  else if info.tag = ConstantPoolTypes.Methodref then some (head ++ "Method reference" ++ ">")
  else if info.tag = ConstantPoolTypes.String then
    match info.String_string_index with
    | some i => some (head ++ "String@" ++ toString ((i : Int) - 1) ++ ">")
    | none => none
  else if info.tag = ConstantPoolTypes.Class then some (head ++ "Class" ++ ">")
  else if info.tag = ConstantPoolTypes.NameAndType then some (head ++ "Name and type" ++ ">")
  else if info.tag = ConstantPoolTypes.Utf8 then
    match info.Utf8_bytes with
    | some t => some (head ++ "Utf8; Value = \"" ++ t ++ "\"" ++ ">")
    | none => none
  else some (head ++ ">")

/-! ## Structural records -/

/-- Method `AttributeInfo::read`. -/
def AttributeInfo.read : M Reader AttributeInfo := do
  let nameBytes ← readBytes 2
  let lengthBytes ← readBytes 4
  if nameBytes.length = 2 ∧ lengthBytes.length = 4 then
    let attribute_name_index := swapEndianness 2 (ofBytes nameBytes)
    let attribute_length := swapEndianness 4 (ofBytes lengthBytes)
    let info ← readBytes attribute_length
    pure { attribute_name_index := attribute_name_index
           attribute_length := attribute_length
           info := info }
  else raise Fault.undefined

/-- The attribute loops: `attributes[i].read(stream)`. -/
def readAttributes : Nat → M Reader (List AttributeInfo)
  | 0 => pure []
  | n + 1 => do
    let a ← AttributeInfo.read
    let as ← readAttributes n
    pure (a :: as)

/-- The four 2-byte fields that start a field or method record, each read and
then byte-swapped. -/
def readRecordHeader : M Reader (Nat × Nat × Nat × Nat) := do
  let a ← readBytes 2
  let b ← readBytes 2
  let c ← readBytes 2
  let d ← readBytes 2
  if a.length = 2 ∧ b.length = 2 ∧ c.length = 2 ∧ d.length = 2 then
    pure (swapEndianness 2 (ofBytes a), swapEndianness 2 (ofBytes b),
          swapEndianness 2 (ofBytes c), swapEndianness 2 (ofBytes d))
  else raise Fault.undefined

/-- Method `FieldEntry::read`. -/
def FieldEntry.read : M Reader FieldEntry := do
  let h ← readRecordHeader
  let attrs ← readAttributes h.2.2.2
  pure { access_flags := h.1, name_index := h.2.1, descriptor_index := h.2.2.1
         attributes_count := h.2.2.2, attributes := attrs }

/-- Method `MethodEntry::read`. -/
def MethodEntry.read : M Reader MethodEntry := do
  let h ← readRecordHeader
  let attrs ← readAttributes h.2.2.2
  pure { access_flags := h.1, name_index := h.2.1, descriptor_index := h.2.2.1
         attributes_count := h.2.2.2, attributes := attrs }

/-- The field loop of the class-file constructor. -/
def readFields : Nat → M Reader (List FieldEntry)
  | 0 => pure []
  | n + 1 => do
    let f ← FieldEntry.read
    let fs ← readFields n
    pure (f :: fs)

/-- The method loop of the class-file constructor. -/
def readMethods : Nat → M Reader (List MethodEntry)
  | 0 => pure []
  | n + 1 => do
    let m ← MethodEntry.read
    let ms ← readMethods n
    pure (m :: ms)

/-- The interface loop of the class-file constructor: each index is read into
`interfaces[i]` and left as read. -/
def readInterfaces : Nat → M Reader (List Nat)
  | 0 => pure []
  | n + 1 => do
    let b ← readObject 2
    let rest ← readInterfaces n
    pure (ofBytes b :: rest)

/-- Expression `pool->entries[idx]`, through a pool pointer that may be null. -/
def entryAt (pool : Option ConstantPool) (idx : Int) : Option ConstantPoolEntry :=
  match pool with
  | none => none
  | some p => subscript p.entries idx

/-- Method `MethodEntry::get_attribute`: the position of the first attribute with
that name, `some none` for the null pointer, `none` for an undefined access. -/
def MethodEntry.get_attribute_from (m : MethodEntry) (pool : Option ConstantPool)
    (name : Text) : Nat → Nat → Option (Option Nat)
  | 0, _ => some none
  | n + 1, i =>
    match m.attributes[i]? with
    | none => none
    | some a =>
      match entryAt pool ((a.attribute_name_index : Int) - 1) with
      | none => none
      | some e =>
        match e.Utf8_bytes with
        | none => none
        | some aname =>
          if aname = name then some (some i)
          else MethodEntry.get_attribute_from m pool name n (i + 1)

/-- Method `MethodEntry::get_attribute`. -/
def MethodEntry.get_attribute (m : MethodEntry) (pool : Option ConstantPool)
    (name : Text) : Option (Option Nat) :=
  MethodEntry.get_attribute_from m pool name m.attributes_count 0

/-! ## Class file -/

/-- The members of a `JavaClassFile` before its constructor has run (their
default member initialisers), with `header1` as read. -/
def JavaClassFile.initial (header1 : JavaClassHeader1) : JavaClassFile :=
  { ok := false, header1 := header1, header2 := none, const_pool := none
    interfaces := [], fields_count := 0, fields := [], methods_count := 0
    methods := [], attributes_count := 0, attributes := [] }

/-- Constructor `JavaClassFile::JavaClassFile`, from the first read on.  The test
`if (!stream)` is on a pointer that is never null. -/
def JavaClassFile.new (filename : Text) : M Reader JavaClassFile := do
  let buf ← readObject 10
  let header1 : JavaClassHeader1 :=
    { magic := swapEndianness 4 (ofBytes (buf.take 4))
      minor := swapEndianness 2 (ofBytes ((buf.drop 4).take 2))
      major := swapEndianness 2 (ofBytes ((buf.drop 6).take 2))
      constantPoolCount := swapEndianness 2 (ofBytes ((buf.drop 8).take 2)) }
  if header1.magic ≠ 0xCAFEBABE then
    Reader.print (filename ++ ": not a Java Class file!" ++ "\n")
    pure (JavaClassFile.initial header1)
  else
    let const_pool ← ConstantPool.new header1
    let buf2 ← readObject 8
    let header2 : JavaClassHeader2 :=
      { access_flags := swapEndianness 2 (ofBytes (buf2.take 2))
        this_class := swapEndianness 2 (ofBytes ((buf2.drop 2).take 2))
        super_class := swapEndianness 2 (ofBytes ((buf2.drop 4).take 2))
        interfaces_count := swapEndianness 2 (ofBytes ((buf2.drop 6).take 2)) }
    let interfaces ← readInterfaces header2.interfaces_count
    let fcBytes ← readObject 2
    let fields_count := swapEndianness 2 (ofBytes fcBytes)
    let fields ← readFields fields_count
    let mcBytes ← readObject 2
    let methods_count := swapEndianness 2 (ofBytes mcBytes)
    let methods ← readMethods methods_count
    let acBytes ← readObject 2
    let attributes_count := swapEndianness 2 (ofBytes acBytes)
    let attributes ← readAttributes attributes_count
    pure { ok := true, header1 := header1, header2 := some header2
           const_pool := some const_pool, interfaces := interfaces
           fields_count := fields_count, fields := fields
           methods_count := methods_count, methods := methods
           attributes_count := attributes_count, attributes := attributes }

/-- The loop of `JavaClassFile::get_method`: the position of the first method with
that name, `some none` for the null pointer, `none` for an undefined access. -/
def JavaClassFile.get_method_from (k : JavaClassFile) (name : Text) :
    Nat → Nat → Option (Option Nat)
  | 0, _ => some none
  | n + 1, i =>
    match k.methods[i]? with
    | none => none
    | some m =>
      match entryAt k.const_pool ((m.name_index : Int) - 1) with
      | none => none
      | some e =>
        match e.Utf8_bytes with
        | none => none
        | some mname =>
          if mname = name then some (some i)
          else JavaClassFile.get_method_from k name n (i + 1)

/-- Method `JavaClassFile::get_method`. -/
def JavaClassFile.get_method (k : JavaClassFile) (name : Text) : Option (Option Nat) :=
  JavaClassFile.get_method_from k name k.methods_count 0

/-! ## Interpreter -/

/-- Process state while bytecode runs: the `JavaExecutor` members `klass` (with
the class file it points to) and `action_stack` (top first), the output written
so far, and a count of the calls of `step`. -/
structure Machine where
  klass : JavaClassFile
  action_stack : List Action
  cout : Text
  cerr : Text
  steps : Nat
  deriving DecidableEq, Repr

/-- Write to standard output. -/
def print (t : Text) : M Machine Unit := fun m =>
  Res.ok () { m with cout := m.cout ++ t }

/-- Expression `klass->const_pool->entries[idx]`. -/
def poolEntry (idx : Int) : M Machine ConstantPoolEntry := fun m =>
  match entryAt m.klass.const_pool idx with
  | none => Res.fail Fault.undefined m
  | some e => Res.ok e m

/-- View of the first 8 bytes of an attribute buffer as a `CodeAttribute`. -/
def CodeAttribute.load (info : List Nat) : Option CodeAttribute :=
  if 8 ≤ info.length then
    some { max_stack := ofBytes (info.take 2)
           max_locals := ofBytes ((info.drop 2).take 2)
           code_length := ofBytes ((info.drop 4).take 4) }
  else none

/-- Writing a `CodeAttribute` over the first 8 bytes of an attribute buffer. -/
def CodeAttribute.store (c : CodeAttribute) (info : List Nat) : List Nat :=
  toBytes 2 c.max_stack ++ toBytes 2 c.max_locals ++ toBytes 4 c.code_length ++ info.drop 8

/-- The three assignments `codeattr->f = swapEndianness(codeattr->f)`. -/
def CodeAttribute.swapFields (c : CodeAttribute) : CodeAttribute :=
  { max_stack := swapEndianness 2 c.max_stack
    max_locals := swapEndianness 2 c.max_locals
    code_length := swapEndianness 4 c.code_length }

/-- A pointer to an attribute of a method of the class file: the method's and the
attribute's positions. -/
structure AttrPtr where
  methodPos : Nat
  attrPos : Nat
  deriving DecidableEq, Repr

/-- The attribute buffer a pointer refers to. -/
def JavaClassFile.infoAt (k : JavaClassFile) (p : AttrPtr) : Option (List Nat) :=
  match k.methods[p.methodPos]? with
  | none => none
  | some m =>
    match m.attributes[p.attrPos]? with
    | none => none
    | some a => some a.info

/-- Overwrite the attribute buffer a pointer refers to. -/
def JavaClassFile.setInfoAt (k : JavaClassFile) (p : AttrPtr) (info : List Nat) :
    JavaClassFile :=
  match k.methods[p.methodPos]? with
  | none => k
  | some m =>
    match m.attributes[p.attrPos]? with
    | none => k
    | some a =>
      let a1 : AttributeInfo := { a with info := info }
      let m1 : MethodEntry := { m with attributes := m.attributes.set p.attrPos a1 }
      { k with methods := k.methods.set p.methodPos m1 }

/-- Reading through a `CodeAttribute*`. -/
def derefCodeAttribute (p : AttrPtr) : M Machine CodeAttribute := fun m =>
  match m.klass.infoAt p with
  | none => Res.fail Fault.undefined m
  | some info =>
    match CodeAttribute.load info with
    | none => Res.fail Fault.undefined m
    | some c => Res.ok c m

/-- Method `JavaExecutor::get_method`. -/
def JavaExecutor.get_method (method_name : Text) : M Machine (Option Nat) := fun m =>
  match m.klass.get_method method_name with
  | none => Res.fail Fault.undefined m
  | some r => Res.ok r m

/-- Call `entry->get_attribute(klass->const_pool, "Code")` followed by a use of the
result through `->info`. -/
def codeAttributeOf (entry : Nat) : M Machine AttrPtr := fun m =>
  match m.klass.methods[entry]? with
  | none => Res.fail Fault.undefined m
  | some me =>
    match me.get_attribute m.klass.const_pool "Code" with
    | some (some a) => Res.ok { methodPos := entry, attrPos := a } m
    | _ => Res.fail Fault.undefined m

/-- Method `JavaExecutor::get_code_attribute`: the three fields of the
`CodeAttribute` are byte-swapped where they lie, in the attribute buffer. -/
def JavaExecutor.get_code_attribute (entry : Option Nat) (method_name : Text) :
    M Machine AttrPtr :=
  match entry with
  | none => do
    print ("Exception: Trying to get Code Attribute from nullptr method!" ++ "\n")
    print ("           Method name: " ++ method_name ++ "\n")
    raise (Fault.exit 1)
  | some e => do
    let codeattr ← codeAttributeOf e
    let c ← derefCodeAttribute codeattr
    fun m =>
      match m.klass.infoAt codeattr with
      | none => Res.fail Fault.undefined m
      | some info =>
        Res.ok codeattr { m with klass := m.klass.setInfoAt codeattr (c.swapFields.store info) }

/-- Method `JavaExecutor::get_code`: the bytes from `info + sizeof(CodeAttribute)` on. -/
def JavaExecutor.get_code (method : Option Nat) : M Machine (List Nat) :=
  match method with
  | none => raise Fault.undefined
  | some e => do
    let p ← codeAttributeOf e
    fun m =>
      match m.klass.infoAt p with
      | none => Res.fail Fault.undefined m
      | some info => Res.ok (info.drop 8) m

/-- Expression `*((uint16_t*)(codeptr + cursor))`. -/
def codeWord (codeptr : List Nat) (cursor : Nat) : Option Nat :=
  match codeptr[cursor]?, codeptr[cursor + 1]? with
  | some a, some b => some (ofBytes [a, b])
  | _, _ => none

/-- The six pool entries that GETSTATIC, INVOKEVIRTUAL and INVOKESTATIC copy out
of the pool, named as the local variables of `step`. -/
structure Resolved where
  entry : ConstantPoolEntry
  class_index : ConstantPoolEntry
  classname_index : ConstantPoolEntry
  name_type_index : ConstantPoolEntry
  name : ConstantPoolEntry
  descriptor : ConstantPoolEntry
  deriving DecidableEq, Repr

/-- The resolution chain written out in each of the three branches of `step`, as
a read of the pool: `none` when one of the accesses is undefined. -/
def resolveAt (pool : Option ConstantPool) (idx : Nat) : Option Resolved := do
  let entry ← entryAt pool ((idx : Int) - 1)
  let ci ← entry.Reference_class_index
  let class_index ← entryAt pool ((ci : Int) - 1)
  let cni ← class_index.Class_name_index
  let classname_index ← entryAt pool ((cni : Int) - 1)
  let nti ← entry.Reference_name_and_type_index
  let name_type_index ← entryAt pool ((nti : Int) - 1)
  let ni ← name_type_index.NameAndType_name_idx
  let name ← entryAt pool ((ni : Int) - 1)
  let di ← name_type_index.NameAndType_descriptor_idx
  let descriptor ← entryAt pool ((di : Int) - 1)
  pure { entry := entry, class_index := class_index, classname_index := classname_index
         name_type_index := name_type_index, name := name, descriptor := descriptor }

/-- The resolution chain run against the executor's class file. -/
def resolveReference (idx : Nat) : M Machine Resolved := fun m =>
  match resolveAt m.klass.const_pool idx with
  | none => Res.fail Fault.undefined m
  | some r => Res.ok r m

/-- Call `action_stack.push(action)`. -/
def push (a : Action) : M Machine Unit := fun m =>
  Res.ok () { m with action_stack := a :: m.action_stack }

/-- Expression `(ConstantAction*)action_stack.top()` followed by a use of
`action->entry`. -/
def topConstantAction : M Machine ConstantPoolEntry := fun m =>
  match m.action_stack with
  | Action.ConstantAction _ entry :: _ => Res.ok entry m
  | _ => Res.fail Fault.undefined m

/-- Call `action_stack.pop()`. -/
def pop : M Machine Unit := fun m =>
  match m.action_stack with
  | _ :: rest => Res.ok () { m with action_stack := rest }
  | [] => Res.fail Fault.undefined m

/-- One more call of `step`. -/
def countStep : M Machine Unit := fun m =>
  Res.ok () { m with steps := m.steps + 1 }

/-- Method `JavaExecutor::step`; `run` is the method it calls for INVOKESTATIC.
`codeptr` is the list of the bytes from the code pointer on (they lie after the
header of the attribute buffer and are never written); the result is the value of
`cursor` on return. -/
def JavaExecutor.step (run : Text → M Machine Nat) (codeptr : List Nat) (cursor : Nat) :
    M Machine Nat := do
  countStep
  let op ← orUndefined codeptr[cursor]?
  if op = GETSTATIC then
    let cursor := cursor + 1
    let idx ← orUndefined (codeWord codeptr cursor)
    let idx := swapEndianness 2 idx
    let cursor := cursor + 1
    let r ← resolveReference idx
    let class_name ← orUndefined r.classname_index.Utf8_bytes
    let name ← orUndefined r.name.Utf8_bytes
    push (Action.StaticAction ActionID.STATIC class_name name)
    pure (cursor + 1)
  else if op = LDC then
    let cursor := cursor + 1
    let idx ← orUndefined codeptr[cursor]?
    let entry ← poolEntry ((idx : Int) - 1)
    push (Action.ConstantAction ActionID.CONSTANT entry)
    pure (cursor + 1)
  else if op = INVOKEVIRTUAL then
    let cursor := cursor + 1
    let idx ← orUndefined (codeWord codeptr cursor)
    let idx := swapEndianness 2 idx
    let cursor := cursor + 1
    let r ← resolveReference idx
    let class_name ← orUndefined r.classname_index.Utf8_bytes
    if class_name = "java/io/PrintStream" then
      let name ← orUndefined r.name.Utf8_bytes
      if name = "println" then
        let entry ← topConstantAction
        let si ← orUndefined entry.String_string_index
        let s ← poolEntry ((si : Int) - 1)
        let text ← orUndefined s.Utf8_bytes
        print (text ++ "\n")
        pop
        pure (cursor + 1)
      else pure (cursor + 1)
    else pure (cursor + 1)
  else if op = INVOKESTATIC then
    print ("Invoke static!" ++ "\n")
    let cursor := cursor + 1
    let idx ← orUndefined (codeWord codeptr cursor)
    let idx := swapEndianness 2 idx
    let cursor := cursor + 1
    let r ← resolveReference idx
    let t1 ← orUndefined r.entry.show
    print ("Class: " ++ t1 ++ "\n")
    let t2 ← orUndefined r.class_index.show
    print ("Class index: " ++ t2 ++ "\n")
    let t3 ← orUndefined r.classname_index.show
    print ("Class name: " ++ t3 ++ "\n")
    let t4 ← orUndefined r.name_type_index.show
    print ("Name and type: " ++ t4 ++ "\n")
    let t5 ← orUndefined r.name.show
    print ("|- Name: " ++ t5 ++ "\n")
    let t6 ← orUndefined r.descriptor.show
    print ("|- Descriptor: " ++ t6 ++ "\n")
    let name ← orUndefined r.name.Utf8_bytes
    let _ ← run name
    pure (cursor + 1)
  else if op = SIPUSH then
    let cursor := cursor + 1
    let sh1 ← orUndefined codeptr[cursor]?
    let cursor := cursor + 1
    let sh2 ← orUndefined codeptr[cursor]?
    let num : Int := Int.ofNat ((sh1 <<< 8) ||| sh2)
    print ("Number is: " ++ toString num ++ "\n")
    push (Action.ValueAction ActionID.CONSTANT num)
    pure (cursor + 1)
  else if op = ILOAD_1 then
    print ("Iload 1!" ++ "\n")
    print ("Need a local variable array!" ++ "\n")
    raise (Fault.exit 1)
  else if op = RETURN then
    print ("Return!" ++ "\n")
    pure (cursor + 1)
  else do
    print ("Unknown instruction: 0x" ++ String.mk (Nat.toDigits 16 op) ++ "\n")
    raise (Fault.exit 1)

/-- The loop `while(cursor < codeattr->code_length) step(code, cursor)` of `run`;
the first argument bounds the number of iterations. -/
def JavaExecutor.loop (run : Text → M Machine Nat) (codeattr : AttrPtr) (code : List Nat) :
    Nat → Nat → M Machine Nat
  | 0, cursor => do
    let c ← derefCodeAttribute codeattr
    if cursor < c.code_length then raise Fault.outOfFuel else pure cursor
  | n + 1, cursor => do
    let c ← derefCodeAttribute codeattr
    if cursor < c.code_length then
      let cursor1 ← JavaExecutor.step run code cursor
      JavaExecutor.loop run codeattr code n cursor1
    else pure cursor

/-- Bound on the iterations of the loop of `run`: `code_length` is a `uint32_t`
and every call of `step` that returns has advanced the cursor. -/
def loopBound : Nat := 4294967296

/-- Method `JavaExecutor::run`.  The first argument bounds the depth of the calls
of `run` inside `run`; the result is the value of `cursor` when the loop ends. -/
def JavaExecutor.run : Nat → Text → M Machine Nat
  | 0, _ => raise Fault.outOfFuel
  | depth + 1, method_name => do
    let cursor := 0
    let method ← JavaExecutor.get_method method_name
    let codeattr ← JavaExecutor.get_code_attribute method method_name
    let c ← derefCodeAttribute codeattr
    print ("[" ++ method_name ++ "] " ++ "Length of LVA: " ++ Nat.repr c.max_locals ++ "\n")
    let code ← JavaExecutor.get_code method
    JavaExecutor.loop (JavaExecutor.run depth) codeattr code loopBound cursor

/-! ## Program -/

/-- What the process leaves behind: its output and the number of calls of `step`. -/
structure Process where
  cout : Text
  cerr : Text
  steps : Nat
  deriving DecidableEq, Repr

/-- Function `main`: `argv` are the arguments (program name first) and `files`
gives the content of the files that can be opened.  The result is the value
returned by `main`. -/
def main (depth : Nat) (argv : List Text) (files : Text → Option (List Nat)) :
    Res Process Nat :=
  match argv with
  | _ :: filename :: _ =>
    let stream : ifstream :=
      match files filename with
      | some bytes => { rest := bytes, consumed := 0 }
      | none => { rest := [], consumed := 0 }
    match JavaClassFile.new filename { stream := stream, cout := "", cerr := "" } with
    | Res.fail f r => Res.fail f { cout := r.cout, cerr := r.cerr, steps := 0 }
    | Res.ok file r =>
      match JavaExecutor.run depth "main"
          { klass := file, action_stack := [], cout := r.cout, cerr := r.cerr, steps := 0 } with
      | Res.ok _ m => Res.ok 0 { cout := m.cout, cerr := m.cerr, steps := m.steps }
      | Res.fail f m => Res.fail f { cout := m.cout, cerr := m.cerr, steps := m.steps }
  | _ => Res.ok 1 { cout := "Too few arguments!" ++ "\n", cerr := "", steps := 0 }

/-! ## Example inputs -/

/-- A class file with one method, `main`, whose code is GETSTATIC #1 (`System.out`);
LDC #7 (the string "Hi"); INVOKEVIRTUAL #9 (`PrintStream.println`); RETURN. -/
def hiFile : List Nat :=
  [
   202, 254, 186, 190, 0, 0, 0, 52, 0, 18, 9, 0, 2, 0, 3, 7, 0, 4, 12, 0,
   5, 0, 6, 1, 0, 16, 106, 97, 118, 97, 47, 108, 97, 110, 103, 47, 83, 121, 115, 116,
   101, 109, 1, 0, 3, 111, 117, 116, 1, 0, 21, 76, 106, 97, 118, 97, 47, 105, 111, 47,
   80, 114, 105, 110, 116, 83, 116, 114, 101, 97, 109, 59, 8, 0, 8, 1, 0, 2, 72, 105,
   10, 0, 10, 0, 11, 7, 0, 12, 12, 0, 13, 0, 14, 1, 0, 19, 106, 97, 118, 97,
   47, 105, 111, 47, 80, 114, 105, 110, 116, 83, 116, 114, 101, 97, 109, 1, 0, 7, 112, 114,
   105, 110, 116, 108, 110, 1, 0, 21, 40, 76, 106, 97, 118, 97, 47, 108, 97, 110, 103, 47,
   83, 116, 114, 105, 110, 103, 59, 41, 86, 1, 0, 4, 109, 97, 105, 110, 1, 0, 4, 67,
   111, 100, 101, 1, 0, 22, 40, 91, 76, 106, 97, 118, 97, 47, 108, 97, 110, 103, 47, 83,
   116, 114, 105, 110, 103, 59, 41, 86, 0, 33, 0, 2, 0, 0, 0, 0, 0, 0, 0, 1,
   0, 9, 0, 15, 0, 17, 0, 1, 0, 16, 0, 0, 0, 21, 0, 2, 0, 1, 0, 0,
   0, 9, 178, 0, 1, 18, 7, 182, 0, 9, 177, 0, 0, 0, 0, 0, 0
  ]

/-- A class file whose method `main` has `code_length = 1` and the one code byte SIPUSH,
followed in the attribute by an empty exception table and attribute list. -/
def overrunFile : List Nat :=
  [
   202, 254, 186, 190, 0, 0, 0, 52, 0, 4, 1, 0, 4, 109, 97, 105, 110, 1, 0, 4,
   67, 111, 100, 101, 1, 0, 3, 40, 41, 86, 0, 33, 0, 2, 0, 0, 0, 0, 0, 0,
   0, 1, 0, 9, 0, 1, 0, 3, 0, 1, 0, 2, 0, 0, 0, 13, 0, 1, 0, 1,
   0, 0, 0, 1, 17, 0, 0, 0, 0, 0, 0
  ]

/-- A class file whose method `main` has the code RETURN; 0xFF; RETURN. -/
def unknownOpFile : List Nat :=
  [
   202, 254, 186, 190, 0, 0, 0, 52, 0, 4, 1, 0, 4, 109, 97, 105, 110, 1, 0, 4,
   67, 111, 100, 101, 1, 0, 3, 40, 41, 86, 0, 33, 0, 2, 0, 0, 0, 0, 0, 0,
   0, 1, 0, 9, 0, 1, 0, 3, 0, 1, 0, 2, 0, 0, 0, 15, 0, 1, 0, 1,
   0, 0, 0, 3, 177, 255, 177, 0, 0, 0, 0, 0, 0
  ]

/-- A class file with two methods: `main`, whose code is INVOKESTATIC #5 (the method `f`);
INVOKESTATIC #5; RETURN, and `f`, whose code is RETURN. -/
def twiceFile : List Nat :=
  [
   202, 254, 186, 190, 0, 0, 0, 52, 0, 9, 1, 0, 4, 109, 97, 105, 110, 1, 0, 4,
   67, 111, 100, 101, 1, 0, 3, 40, 41, 86, 1, 0, 1, 102, 10, 0, 6, 0, 8, 7,
   0, 7, 1, 0, 1, 65, 12, 0, 4, 0, 3, 0, 33, 0, 2, 0, 0, 0, 0, 0,
   0, 0, 2, 0, 9, 0, 1, 0, 3, 0, 1, 0, 2, 0, 0, 0, 19, 0, 1, 0,
   1, 0, 0, 0, 7, 184, 0, 5, 184, 0, 5, 177, 0, 0, 0, 0, 0, 9, 0, 4,
   0, 3, 0, 1, 0, 2, 0, 0, 0, 13, 0, 1, 0, 1, 0, 0, 0, 1, 177, 0,
   0, 0, 0, 0, 0
  ]

/-- A class file with the constant pool of `hiFile`, extended by a reference #19 to the
method `f`, and two methods: `main`, whose code is LDC #7 (the string "Hi"); INVOKESTATIC #19;
RETURN, and `f`, whose code is INVOKEVIRTUAL #9 (`PrintStream.println`); RETURN. -/
def calleePrintsFile : List Nat :=
  [
   202, 254, 186, 190, 0, 0, 0, 52, 0, 24, 9, 0, 2, 0, 3, 7, 0, 4, 12, 0,
   5, 0, 6, 1, 0, 16, 106, 97, 118, 97, 47, 108, 97, 110, 103, 47, 83, 121, 115, 116,
   101, 109, 1, 0, 3, 111, 117, 116, 1, 0, 21, 76, 106, 97, 118, 97, 47, 105, 111, 47,
   80, 114, 105, 110, 116, 83, 116, 114, 101, 97, 109, 59, 8, 0, 8, 1, 0, 2, 72, 105,
   10, 0, 10, 0, 11, 7, 0, 12, 12, 0, 13, 0, 14, 1, 0, 19, 106, 97, 118, 97,
   47, 105, 111, 47, 80, 114, 105, 110, 116, 83, 116, 114, 101, 97, 109, 1, 0, 7, 112, 114,
   105, 110, 116, 108, 110, 1, 0, 21, 40, 76, 106, 97, 118, 97, 47, 108, 97, 110, 103, 47,
   83, 116, 114, 105, 110, 103, 59, 41, 86, 1, 0, 4, 109, 97, 105, 110, 1, 0, 4, 67,
   111, 100, 101, 1, 0, 22, 40, 91, 76, 106, 97, 118, 97, 47, 108, 97, 110, 103, 47, 83,
   116, 114, 105, 110, 103, 59, 41, 86, 1, 0, 1, 102, 10, 0, 20, 0, 22, 7, 0, 21,
   1, 0, 1, 65, 12, 0, 18, 0, 23, 1, 0, 3, 40, 41, 86, 0, 33, 0, 2, 0,
   0, 0, 0, 0, 0, 0, 2, 0, 9, 0, 15, 0, 17, 0, 1, 0, 16, 0, 0, 0,
   18, 0, 2, 0, 1, 0, 0, 0, 6, 18, 7, 184, 0, 19, 177, 0, 0, 0, 0, 0,
   9, 0, 18, 0, 23, 0, 1, 0, 16, 0, 0, 0, 16, 0, 2, 0, 1, 0, 0, 0,
   4, 182, 0, 9, 177, 0, 0, 0, 0, 0, 0
  ]

/-- A class file with the constant pool of `hiFile` and one method, `main`, whose code is
SIPUSH 1 2; INVOKEVIRTUAL #9 (`PrintStream.println`); RETURN. -/
def printIntFile : List Nat :=
  [
   202, 254, 186, 190, 0, 0, 0, 52, 0, 18, 9, 0, 2, 0, 3, 7, 0, 4, 12, 0,
   5, 0, 6, 1, 0, 16, 106, 97, 118, 97, 47, 108, 97, 110, 103, 47, 83, 121, 115, 116,
   101, 109, 1, 0, 3, 111, 117, 116, 1, 0, 21, 76, 106, 97, 118, 97, 47, 105, 111, 47,
   80, 114, 105, 110, 116, 83, 116, 114, 101, 97, 109, 59, 8, 0, 8, 1, 0, 2, 72, 105,
   10, 0, 10, 0, 11, 7, 0, 12, 12, 0, 13, 0, 14, 1, 0, 19, 106, 97, 118, 97,
   47, 105, 111, 47, 80, 114, 105, 110, 116, 83, 116, 114, 101, 97, 109, 1, 0, 7, 112, 114,
   105, 110, 116, 108, 110, 1, 0, 21, 40, 76, 106, 97, 118, 97, 47, 108, 97, 110, 103, 47,
   83, 116, 114, 105, 110, 103, 59, 41, 86, 1, 0, 4, 109, 97, 105, 110, 1, 0, 4, 67,
   111, 100, 101, 1, 0, 22, 40, 91, 76, 106, 97, 118, 97, 47, 108, 97, 110, 103, 47, 83,
   116, 114, 105, 110, 103, 59, 41, 86, 0, 33, 0, 2, 0, 0, 0, 0, 0, 0, 0, 1,
   0, 9, 0, 15, 0, 17, 0, 1, 0, 16, 0, 0, 0, 19, 0, 2, 0, 1, 0, 0,
   0, 7, 17, 1, 2, 182, 0, 9, 177, 0, 0, 0, 0, 0, 0
  ]

/-- A class file with one interface index, wire bytes 0x00 0x05, and one method, `main`,
whose code is RETURN. -/
def interfaceFile : List Nat :=
  [
   202, 254, 186, 190, 0, 0, 0, 52, 0, 4, 1, 0, 4, 109, 97, 105, 110, 1, 0, 4,
   67, 111, 100, 101, 1, 0, 3, 40, 41, 86, 0, 33, 0, 2, 0, 0, 0, 1, 0, 5,
   0, 0, 0, 1, 0, 9, 0, 1, 0, 3, 0, 1, 0, 2, 0, 0, 0, 13, 0, 1,
   0, 1, 0, 0, 0, 1, 177, 0, 0, 0, 0, 0, 0
  ]

/-- A constant-pool stream with two Utf8 entries, "a" and "b". -/
def twoNamesPool : List Nat := [1, 0, 1, 97, 1, 0, 1, 98]

/-- The pool constructed from `twoNamesPool`. -/
def twoNames : ConstantPool :=
  { entries := [{ tag := 1, u := Payload.Utf8 1 "a" }, { tag := 1, u := Payload.Utf8 1 "b" }] }

/-- A class file with the pool `twoNames` and one method whose `name_index` is 1. -/
def twoNamesKlass : JavaClassFile :=
  { ok := true
    header1 := { magic := 0xCAFEBABE, minor := 0, major := 52, constantPoolCount := 3 }
    header2 := some { access_flags := 33, this_class := 0, super_class := 0, interfaces_count := 0 }
    const_pool := some twoNames
    interfaces := [], fields_count := 0, fields := []
    methods_count := 1
    methods := [{ access_flags := 9, name_index := 1, descriptor_index := 2
                  attributes_count := 0, attributes := [] }]
    attributes_count := 0, attributes := [] }

/-- The executor on `twoNamesKlass`, before anything has run. -/
def twoNamesMachine : Machine :=
  { klass := twoNamesKlass, action_stack := [], cout := "", cerr := "", steps := 0 }

/-- The start of a file that is not a class file: the magic is 0xCAFEBABF. -/
def notClassFile : List Nat := [202, 254, 186, 191, 0, 0, 0, 52, 0, 2, 1, 0, 1, 97, 0, 33]

/-- The reader at the start of a file. -/
def atStart (bytes : List Nat) : Reader :=
  { stream := { rest := bytes, consumed := 0 }, cout := "", cerr := "" }

/-- The class file constructed from the bytes of a file. -/
def parsed (bytes : List Nat) : JavaClassFile :=
  match JavaClassFile.new "a.class" (atStart bytes) with
  | Res.ok k _ => k
  | Res.fail _ _ => JavaClassFile.initial { magic := 0, minor := 0, major := 0, constantPoolCount := 0 }

/-- The executor on the class file of these bytes, before anything has run. -/
def started (bytes : List Nat) : Machine :=
  { klass := parsed bytes, action_stack := [], cout := "", cerr := "", steps := 0 }

/-- The executor on `calleePrintsFile` when `main` is about to call `f`: the constant "Hi",
pool entry #7, is on the stack. -/
def callerAtCall : Machine :=
  { started calleePrintsFile with
      action_stack := [Action.ConstantAction ActionID.CONSTANT { tag := 8, u := Payload.String 8 }] }

/-- The executor on `printIntFile` with a field reference on the stack, as GETSTATIC pushes
it. -/
def fieldOnStack : Machine :=
  { started printIntFile with
      action_stack := [Action.StaticAction ActionID.STATIC "java/lang/System" "out"] }

/-! ## Vocabulary of the theorems -/

/-- The method named `name` is found at position `p.methodPos`, its attribute named
"Code" at position `p.attrPos`, and the buffer of that attribute holds `info`. -/
def HasCode (k : JavaClassFile) (name : Text) (p : AttrPtr) (info : List Nat) : Prop :=
  k.get_method name = some (some p.methodPos) ∧
  (k.methods[p.methodPos]?).bind (fun me => me.get_attribute k.const_pool "Code")
    = some (some p.attrPos) ∧
  k.infoAt p = some info

instance (k : JavaClassFile) (name : Text) (p : AttrPtr) (info : List Nat) :
    Decidable (HasCode k name p info) := by
  unfold HasCode
  infer_instance

/-- Number of operand bytes of an opcode in the opcode table of the specification. -/
def operandWidth (op : Nat) : Nat :=
  if op = GETSTATIC then 2
  else if op = LDC then 1
  else if op = SIPUSH then 2
  else if op = INVOKEVIRTUAL then 2
  else if op = INVOKESTATIC then 2
  else 0

/-- The value a computation returned, if it returned. -/
def Res.value? {σ α : Type} : Res σ α → Option α
  | Res.ok a _ => some a
  | Res.fail _ _ => none

/-- The fault a computation stopped with, if it did. -/
def Res.fault? {σ α : Type} : Res σ α → Option Fault
  | Res.ok _ _ => none
  | Res.fail f _ => some f

/-- The state a computation ended in. -/
def Res.state {σ α : Type} : Res σ α → σ
  | Res.ok _ s => s
  | Res.fail _ s => s

/-- The tag constants of the format, the members of `ConstantPoolTypes`. -/
def formatTags : List Nat := [1, 3, 4, 5, 6, 7, 8, 9, 10, 11, 12, 15, 16, 18]

/-- Expression `*const_pool->entries[methods[i].name_index - 1].Utf8.bytes` of
`get_method`: the name of the method at position `i`, `none` when an access is
undefined. -/
def JavaClassFile.methodName (k : JavaClassFile) (i : Nat) : Option Text :=
  match k.methods[i]? with
  | none => none
  | some m =>
    match entryAt k.const_pool ((m.name_index : Int) - 1) with
    | none => none
    | some e => e.Utf8_bytes

/-- The opcodes of a code array of length `n` in the order of their decoding from
`cursor`: each is followed by as many operand bytes as the opcode table gives it.
The first argument bounds the number of opcodes. -/
def opcodesFrom (code : List Nat) (n : Nat) : Nat → Nat → List Nat
  | 0, _ => []
  | fuel + 1, cursor =>
    if cursor < n then
      match code[cursor]? with
      | some op => op :: opcodesFrom code n fuel (cursor + 1 + operandWidth op)
      | none => []
    else []

/-- Condition on both ways a computation can end from `s`: `Qok` on a result,
`Qfail` on a fault. -/
def Ends {σ α : Type} (x : M σ α) (s : σ) (Qok : α → σ → Prop) (Qfail : Fault → σ → Prop) :
    Prop :=
  match x s with
  | Res.ok a s1 => Qok a s1
  | Res.fail e s1 => Qfail e s1

/-- Postcondition: `Q` holds of every result with which `x` returns from `s`. -/
def Post {σ α : Type} (x : M σ α) (s : σ) (Q : α → σ → Prop) : Prop :=
  ∀ a s1, x s = Res.ok a s1 → Q a s1

/-! ## Lemmas -/

/-! ### Bytes -/

theorem toBytes_length (n x : Nat) : (toBytes n x).length = n := by
  induction n generalizing x with
  | zero => rfl
  | succ k ih => simp [toBytes, ih]

theorem toBytes_lt (n x : Nat) : ∀ b ∈ toBytes n x, b < 256 := by
  induction n generalizing x with
  | zero => simp [toBytes]
  | succ k ih =>
    intro b hb
    simp only [toBytes, List.mem_cons] at hb
    rcases hb with rfl | hb
    · exact Nat.mod_lt _ (by decide)
    · exact ih _ b hb

theorem toBytes_ofBytes (l : List Nat) (h : ∀ b ∈ l, b < 256) :
    toBytes l.length (ofBytes l) = l := by
  induction l with
  | nil => rfl
  | cons a t ih =>
    have ha : a < 256 := h a (List.mem_cons_self a t)
    have ht : ∀ b ∈ t, b < 256 := fun b hb => h b (List.mem_cons_of_mem a hb)
    have e1 : (a + 256 * ofBytes t) % 256 = a := by omega
    have e2 : (a + 256 * ofBytes t) / 256 = ofBytes t := by omega
    simp only [List.length_cons, toBytes, ofBytes, e1, e2, ih ht]

theorem ofBytes_toBytes (n x : Nat) : ofBytes (toBytes n x) = x % 256 ^ n := by
  induction n generalizing x with
  | zero => simp [toBytes, ofBytes, Nat.mod_one]
  | succ k ih =>
    simp only [toBytes, ofBytes, ih]
    rw [Nat.pow_succ, Nat.mul_comm (256 ^ k) 256, Nat.mod_mul]

theorem range_map_getD_reverse (l : List Nat) :
    (List.range l.length).map (fun i => l.getD (l.length - i - 1) 0) = l.reverse := by
  apply List.ext_getElem
  · simp
  · intro i h1 h2
    simp only [List.length_map, List.length_range] at h1
    have h3 : l.length - i - 1 < l.length := by omega
    simp [List.getElem_reverse, List.getD_eq_getElem?_getD, List.getElem?_eq_getElem h3]
    congr 1
    omega

theorem swapEndianness_eq (n x : Nat) :
    swapEndianness n x = ofBytes (toBytes n x).reverse := by
  unfold swapEndianness
  have h := range_map_getD_reverse (toBytes n x)
  rw [toBytes_length] at h
  simp only [h]

theorem swapEndianness_involutive (n x : Nat) (h : x < 256 ^ n) :
    swapEndianness n (swapEndianness n x) = x := by
  rw [swapEndianness_eq n (swapEndianness n x), swapEndianness_eq n x]
  have hl : (toBytes n x).reverse.length = n := by simp [toBytes_length]
  have hb : ∀ b ∈ (toBytes n x).reverse, b < 256 := by
    intro b hb
    exact toBytes_lt n x b (List.mem_reverse.mp hb)
  have e := toBytes_ofBytes (toBytes n x).reverse hb
  rw [hl] at e
  rw [e, List.reverse_reverse, ofBytes_toBytes, Nat.mod_eq_of_lt h]

theorem swapEndianness_lt (n x : Nat) : swapEndianness n x < 256 ^ n := by
  rw [swapEndianness_eq]
  have hb : ∀ b ∈ (toBytes n x).reverse, b < 256 := by
    intro b hb
    exact toBytes_lt n x b (List.mem_reverse.mp hb)
  have hl : (toBytes n x).reverse.length = n := by simp [toBytes_length]
  have e := ofBytes_toBytes n (ofBytes (toBytes n x).reverse)
  have e2 := toBytes_ofBytes (toBytes n x).reverse hb
  rw [hl] at e2
  rw [e2] at e
  rw [e]
  exact Nat.mod_lt _ (by positivity)

theorem swap2_bytes (a b : Nat) (ha : a < 256) (hb : b < 256) :
    swapEndianness 2 (ofBytes [a, b]) = 256 * a + b := by
  simp [swapEndianness, toBytes, ofBytes, List.range, List.range.loop]
  omega

theorem swap4_bytes (a b c d : Nat) (ha : a < 256) (hb : b < 256) (hc : c < 256) (hd : d < 256) :
    swapEndianness 4 (ofBytes [a, b, c, d]) = 16777216 * a + 65536 * b + 256 * c + d := by
  simp [swapEndianness, toBytes, ofBytes, List.range, List.range.loop]
  omega

/-! ### Sequencing -/

theorem bind_apply {σ α β : Type} (x : M σ α) (f : α → M σ β) (s : σ) :
    (x >>= f) s = match x s with
      | Res.ok a s1 => f a s1
      | Res.fail e s1 => Res.fail e s1 := rfl

theorem pure_apply {σ α : Type} (a : α) (s : σ) : (pure a : M σ α) s = Res.ok a s := rfl

theorem raise_apply {σ α : Type} (f : Fault) (s : σ) : (raise f : M σ α) s = Res.fail f s := rfl

theorem orUndefined_some {σ α : Type} (a : α) (s : σ) :
    (orUndefined (some a) : M σ α) s = Res.ok a s := rfl

theorem orUndefined_none {σ α : Type} (s : σ) :
    (orUndefined (none : Option α) : M σ α) s = Res.fail Fault.undefined s := rfl

/-! ### Single steps -/

theorem codeWord_eq (codeptr : List Nat) (cursor a b : Nat)
    (ha : codeptr[cursor]? = some a) (hb : codeptr[cursor + 1]? = some b) :
    codeWord codeptr cursor = some (ofBytes [a, b]) := by
  simp [codeWord, ha, hb]

theorem step_unknown (run : Text → M Machine Nat) (codeptr : List Nat) (cursor op : Nat)
    (m : Machine) (hop : codeptr[cursor]? = some op)
    (h1 : op ≠ 0xB2) (h2 : op ≠ 0x12) (h3 : op ≠ 0x11) (h4 : op ≠ 0x1b) (h5 : op ≠ 0xB6)
    (h6 : op ≠ 0xB8) (h7 : op ≠ 0xB1) :
    JavaExecutor.step run codeptr cursor m =
      Res.fail (Fault.exit 1)
        { m with cout := m.cout ++ ("Unknown instruction: 0x" ++ String.mk (Nat.toDigits 16 op) ++ "\n")
                 steps := m.steps + 1 } := by
  simp only [JavaExecutor.step, bind_apply, countStep, hop, orUndefined, pure_apply,
    GETSTATIC, LDC, SIPUSH, ILOAD_1, INVOKEVIRTUAL, INVOKESTATIC, RETURN, h1, h2, h3, h4, h5, h6, h7,
    if_false, print, raise_apply]

theorem step_RETURN (run : Text → M Machine Nat) (codeptr : List Nat) (cursor : Nat)
    (m : Machine) (hop : codeptr[cursor]? = some 0xB1) :
    JavaExecutor.step run codeptr cursor m =
      Res.ok (cursor + 1) { m with cout := m.cout ++ ("Return!" ++ "\n"), steps := m.steps + 1 } := by
  simp [JavaExecutor.step, bind_apply, countStep, hop, orUndefined, pure_apply,
    GETSTATIC, LDC, SIPUSH, ILOAD_1, INVOKEVIRTUAL, INVOKESTATIC, RETURN, print]

theorem step_SIPUSH (run : Text → M Machine Nat) (codeptr : List Nat) (cursor b1 b2 : Nat)
    (m : Machine) (hop : codeptr[cursor]? = some 0x11)
    (h1 : codeptr[cursor + 1]? = some b1) (h2 : codeptr[cursor + 1 + 1]? = some b2) :
    JavaExecutor.step run codeptr cursor m =
      Res.ok (cursor + 3)
        { m with action_stack :=
                   Action.ValueAction ActionID.CONSTANT (Int.ofNat ((b1 <<< 8) ||| b2)) :: m.action_stack
                 cout := m.cout ++ ("Number is: " ++ toString (Int.ofNat ((b1 <<< 8) ||| b2)) ++ "\n")
                 steps := m.steps + 1 } := by
  simp [JavaExecutor.step, bind_apply, countStep, hop, h1, h2, orUndefined, pure_apply,
    GETSTATIC, LDC, SIPUSH, ILOAD_1, INVOKEVIRTUAL, INVOKESTATIC, RETURN, print, push]

theorem step_LDC (run : Text → M Machine Nat) (codeptr : List Nat) (cursor idx : Nat)
    (m : Machine) (e : ConstantPoolEntry) (hop : codeptr[cursor]? = some 0x12)
    (h1 : codeptr[cursor + 1]? = some idx)
    (he : entryAt m.klass.const_pool ((idx : Int) - 1) = some e) :
    JavaExecutor.step run codeptr cursor m =
      Res.ok (cursor + 2)
        { m with action_stack := Action.ConstantAction ActionID.CONSTANT e :: m.action_stack
                 steps := m.steps + 1 } := by
  simp [JavaExecutor.step, bind_apply, countStep, hop, h1, he, orUndefined, pure_apply, poolEntry,
    GETSTATIC, LDC, SIPUSH, ILOAD_1, INVOKEVIRTUAL, INVOKESTATIC, RETURN, print, push]

theorem step_LDC_undefined (run : Text → M Machine Nat) (codeptr : List Nat) (cursor idx : Nat)
    (m : Machine) (hop : codeptr[cursor]? = some 0x12)
    (h1 : codeptr[cursor + 1]? = some idx)
    (he : entryAt m.klass.const_pool ((idx : Int) - 1) = none) :
    JavaExecutor.step run codeptr cursor m =
      Res.fail Fault.undefined { m with steps := m.steps + 1 } := by
  simp [JavaExecutor.step, bind_apply, countStep, hop, h1, he, orUndefined, pure_apply, poolEntry,
    GETSTATIC, LDC, SIPUSH, ILOAD_1, INVOKEVIRTUAL, INVOKESTATIC, RETURN, print, push]

theorem step_GETSTATIC (run : Text → M Machine Nat) (codeptr : List Nat) (cursor b1 b2 : Nat)
    (m : Machine) (r : Resolved) (cn fn : Text) (hop : codeptr[cursor]? = some 0xB2)
    (h1 : codeptr[cursor + 1]? = some b1) (h2 : codeptr[cursor + 1 + 1]? = some b2)
    (hb1 : b1 < 256) (hb2 : b2 < 256)
    (hr : resolveAt m.klass.const_pool (256 * b1 + b2) = some r)
    (hcn : r.classname_index.Utf8_bytes = some cn) (hfn : r.name.Utf8_bytes = some fn) :
    JavaExecutor.step run codeptr cursor m =
      Res.ok (cursor + 3)
        { m with action_stack := Action.StaticAction ActionID.STATIC cn fn :: m.action_stack
                 steps := m.steps + 1 } := by
  simp [JavaExecutor.step, bind_apply, countStep, hop, codeWord_eq _ _ _ _ h1 h2,
    swap2_bytes b1 b2 hb1 hb2, hr, hcn, hfn, orUndefined, pure_apply, resolveReference,
    GETSTATIC, LDC, SIPUSH, ILOAD_1, INVOKEVIRTUAL, INVOKESTATIC, RETURN, print, push]

theorem step_INVOKEVIRTUAL_println (run : Text → M Machine Nat) (codeptr : List Nat)
    (cursor b1 b2 si : Nat) (m : Machine) (r : Resolved) (id : ActionID)
    (entry s : ConstantPoolEntry) (rest : List Action) (text : Text)
    (hop : codeptr[cursor]? = some 0xB6)
    (h1 : codeptr[cursor + 1]? = some b1) (h2 : codeptr[cursor + 1 + 1]? = some b2)
    (hb1 : b1 < 256) (hb2 : b2 < 256)
    (hr : resolveAt m.klass.const_pool (256 * b1 + b2) = some r)
    (hcn : r.classname_index.Utf8_bytes = some "java/io/PrintStream")
    (hfn : r.name.Utf8_bytes = some "println")
    (hstack : m.action_stack = Action.ConstantAction id entry :: rest)
    (hsi : entry.String_string_index = some si)
    (hs : entryAt m.klass.const_pool ((si : Int) - 1) = some s)
    (htext : s.Utf8_bytes = some text) :
    JavaExecutor.step run codeptr cursor m =
      Res.ok (cursor + 3)
        { m with action_stack := rest
                 cout := m.cout ++ (text ++ "\n")
                 steps := m.steps + 1 } := by
  simp [JavaExecutor.step, bind_apply, countStep, hop, codeWord_eq _ _ _ _ h1 h2,
    swap2_bytes b1 b2 hb1 hb2, hr, hcn, hfn, hstack, hsi, hs, htext, orUndefined, pure_apply,
    resolveReference, poolEntry, topConstantAction, pop,
    GETSTATIC, LDC, SIPUSH, ILOAD_1, INVOKEVIRTUAL, INVOKESTATIC, RETURN, print, push]

/-! ### Postconditions -/

theorem post_bind {σ α β : Type} (x : M σ α) (f : α → M σ β) (s : σ) (Q : β → σ → Prop) :
    Post (x >>= f) s Q ↔ Post x s (fun a s1 => Post (f a) s1 Q) := by
  unfold Post
  rw [bind_apply]
  constructor
  · intro h a s1 hx b s2 hf
    apply h
    rw [hx]
    exact hf
  · intro h b s2 hb
    cases hx : x s with
    | ok a s1 =>
      rw [hx] at hb
      exact h a s1 hx b s2 hb
    | fail e s1 =>
      rw [hx] at hb
      cases hb

theorem post_pure {σ α : Type} (a : α) (s : σ) (Q : α → σ → Prop) :
    Post (pure a : M σ α) s Q ↔ Q a s := by
  unfold Post
  rw [pure_apply]
  constructor
  · intro h
    exact h a s rfl
  · intro h b s1 hb
    cases hb
    exact h

theorem post_raise {σ α : Type} (f : Fault) (s : σ) (Q : α → σ → Prop) :
    Post (raise f : M σ α) s Q ↔ True := by
  unfold Post
  rw [raise_apply]
  simp

theorem post_orUndefined {σ α : Type} (o : Option α) (s : σ) (Q : α → σ → Prop) :
    Post (orUndefined o : M σ α) s Q ↔ ∀ a, o = some a → Q a s := by
  cases o with
  | none => simp [Post, orUndefined_none]
  | some v =>
    simp only [Post, orUndefined_some, Option.some.injEq]
    constructor
    · intro h a ha
      subst ha
      exact h _ _ rfl
    · intro h a s1 hb
      cases hb
      exact h _ rfl

theorem post_ite {σ α : Type} (c : Prop) [Decidable c] (x y : M σ α) (s : σ)
    (Q : α → σ → Prop) :
    Post (if c then x else y) s Q ↔ (c → Post x s Q) ∧ (¬ c → Post y s Q) := by
  by_cases h : c <;> simp [h]

theorem post_print (t : Text) (s : Machine) (Q : Unit → Machine → Prop) :
    Post (print t) s Q ↔ Q () { s with cout := s.cout ++ t } := by
  simp only [Post, print]
  constructor
  · intro h
    exact h _ _ rfl
  · intro h a s1 hb
    cases hb
    exact h

theorem post_push (a : Action) (s : Machine) (Q : Unit → Machine → Prop) :
    Post (push a) s Q ↔ Q () { s with action_stack := a :: s.action_stack } := by
  simp only [Post, push]
  constructor
  · intro h
    exact h _ _ rfl
  · intro h a s1 hb
    cases hb
    exact h

theorem post_countStep (s : Machine) (Q : Unit → Machine → Prop) :
    Post countStep s Q ↔ Q () { s with steps := s.steps + 1 } := by
  simp only [Post, countStep]
  constructor
  · intro h
    exact h _ _ rfl
  · intro h a s1 hb
    cases hb
    exact h

theorem post_pop (s : Machine) (Q : Unit → Machine → Prop) :
    Post pop s Q ↔ ∀ a rest, s.action_stack = a :: rest → Q () { s with action_stack := rest } := by
  unfold Post pop
  cases hs : s.action_stack with
  | nil => simp
  | cons a rest =>
    simp only [List.cons.injEq, and_imp]
    constructor
    · intro h a1 r1 _ hr
      subst hr
      exact h _ _ rfl
    · intro h u s1 hb
      cases hb
      exact h a rest rfl rfl

theorem post_topConstantAction (s : Machine) (Q : ConstantPoolEntry → Machine → Prop) :
    Post topConstantAction s Q ↔
      ∀ id e rest, s.action_stack = Action.ConstantAction id e :: rest → Q e s := by
  unfold Post topConstantAction
  constructor
  · intro h id e rest hs
    apply h
    simp [hs]
  · intro h e s1 hb
    split at hb
    · next id entry rest hs =>
      cases hb
      exact h id e rest hs
    · cases hb

theorem post_poolEntry (idx : Int) (s : Machine) (Q : ConstantPoolEntry → Machine → Prop) :
    Post (poolEntry idx) s Q ↔ ∀ e, entryAt s.klass.const_pool idx = some e → Q e s := by
  unfold Post poolEntry
  cases h : entryAt s.klass.const_pool idx with
  | none => simp
  | some v =>
    simp only [Option.some.injEq]
    constructor
    · intro h1 e he
      subst he
      exact h1 _ _ rfl
    · intro h1 e s1 hb
      cases hb
      exact h1 _ rfl

theorem post_resolveReference (idx : Nat) (s : Machine) (Q : Resolved → Machine → Prop) :
    Post (resolveReference idx) s Q ↔ ∀ r, resolveAt s.klass.const_pool idx = some r → Q r s := by
  unfold Post resolveReference
  cases h : resolveAt s.klass.const_pool idx with
  | none => simp
  | some v =>
    simp only [Option.some.injEq]
    constructor
    · intro h1 e he
      subst he
      exact h1 _ _ rfl
    · intro h1 e s1 hb
      cases hb
      exact h1 _ rfl

/-- What every call of `step` that returns has done: the opcode is one of six,
the cursor has advanced by one plus the operand width, and the class file is as
before unless `run` was called and returned. -/
theorem step_post (run : Text → M Machine Nat) (codeptr : List Nat) (cursor : Nat)
    (m : Machine) :
    Post (JavaExecutor.step run codeptr cursor) m (fun c1 m1 =>
      ∃ op, codeptr[cursor]? = some op ∧
        ((op = GETSTATIC ∨ op = INVOKEVIRTUAL ∨ op = SIPUSH) ∧ c1 = cursor + 3 ∧ m1.klass = m.klass
          ∨ op = INVOKESTATIC ∧ c1 = cursor + 3 ∧ (∃ callee s a, run callee s = Res.ok a m1)
          ∨ op = LDC ∧ c1 = cursor + 2 ∧ m1.klass = m.klass
          ∨ op = RETURN ∧ c1 = cursor + 1 ∧ m1.klass = m.klass)) := by
  simp only [JavaExecutor.step, post_bind, post_countStep, post_orUndefined, post_ite, post_pure,
    post_raise, post_print, post_push, post_pop, post_topConstantAction, post_poolEntry,
    post_resolveReference]
  intro op hop
  refine ⟨?_, ?_⟩
  · intro h
    intros
    exact ⟨op, hop, by simp [h]⟩
  intro h1
  refine ⟨?_, ?_⟩
  · intro h
    intros
    exact ⟨op, hop, by simp [h]⟩
  intro h2
  refine ⟨?_, ?_⟩
  · intro h
    intro a ha r hr cn hcn
    refine ⟨?_, ?_⟩
    · intro hc fn hfn
      refine ⟨?_, ?_⟩
      · intros
        exact ⟨op, hop, by simp [h]⟩
      · intros
        exact ⟨op, hop, by simp [h]⟩
    · intros
      exact ⟨op, hop, by simp [h]⟩
  intro h3
  refine ⟨?_, ?_⟩
  · intro h
    intros
    unfold Post
    intro a s1 hrun
    refine ⟨op, hop, Or.inr (Or.inl ?_)⟩
    simp only [h, true_and]
    exact ⟨_, _, _, hrun⟩
  intro h4
  refine ⟨?_, ?_⟩
  · intro h
    intros
    exact ⟨op, hop, by simp [h]⟩
  intro h5
  refine ⟨?_, ?_⟩
  · intro h
    trivial
  intro h6
  refine ⟨?_, ?_⟩
  · intro h
    exact ⟨op, hop, by simp [h]⟩
  · intro h
    trivial

/-! ### The class file under `get_code_attribute` -/

theorem setInfoAt_const_pool (k : JavaClassFile) (p : AttrPtr) (info : List Nat) :
    (k.setInfoAt p info).const_pool = k.const_pool := by
  unfold JavaClassFile.setInfoAt
  split
  · rfl
  · split <;> rfl

theorem setInfoAt_methods_count (k : JavaClassFile) (p : AttrPtr) (info : List Nat) :
    (k.setInfoAt p info).methods_count = k.methods_count := by
  unfold JavaClassFile.setInfoAt
  split
  · rfl
  · split <;> rfl

theorem infoAt_setInfoAt (k : JavaClassFile) (p : AttrPtr) (info0 info : List Nat)
    (h : k.infoAt p = some info0) : (k.setInfoAt p info).infoAt p = some info := by
  unfold JavaClassFile.infoAt at h
  unfold JavaClassFile.setInfoAt JavaClassFile.infoAt
  cases hm : k.methods[p.methodPos]? with
  | none => simp [hm] at h
  | some me =>
    simp only [hm] at h ⊢
    cases ha : me.attributes[p.attrPos]? with
    | none => simp [ha] at h
    | some a =>
      have h1 : p.methodPos < k.methods.length := by
        rcases List.getElem?_eq_some_iff.mp hm with ⟨hlt, _⟩
        exact hlt
      have h2 : p.attrPos < me.attributes.length := by
        rcases List.getElem?_eq_some_iff.mp ha with ⟨hlt, _⟩
        exact hlt
      simp [List.getElem?_set, h1, h2]

theorem get_attribute_from_congr (m1 m2 : MethodEntry) (pool : Option ConstantPool) (name : Text)
    (h : ∀ i : Nat, (m1.attributes[i]?).map (fun a : AttributeInfo => a.attribute_name_index)
            = (m2.attributes[i]?).map (fun a : AttributeInfo => a.attribute_name_index)) :
    ∀ n i, MethodEntry.get_attribute_from m1 pool name n i
         = MethodEntry.get_attribute_from m2 pool name n i := by
  intro n
  induction n with
  | zero => intro i; rfl
  | succ n ih =>
    intro i
    unfold MethodEntry.get_attribute_from
    have hi := h i
    cases h1 : m1.attributes[i]? with
    | none =>
      cases h2 : m2.attributes[i]? with
      | none => rfl
      | some a2 => simp [h1, h2] at hi
    | some a1 =>
      cases h2 : m2.attributes[i]? with
      | none => simp [h1, h2] at hi
      | some a2 =>
        simp only [h1, h2, Option.map_some', Option.some.injEq] at hi
        simp only [hi, ih]

theorem get_method_from_congr (k1 k2 : JavaClassFile) (name : Text)
    (hp : k1.const_pool = k2.const_pool)
    (h : ∀ i : Nat, (k1.methods[i]?).map (fun a : MethodEntry => a.name_index)
            = (k2.methods[i]?).map (fun a : MethodEntry => a.name_index)) :
    ∀ n i, JavaClassFile.get_method_from k1 name n i
         = JavaClassFile.get_method_from k2 name n i := by
  intro n
  induction n with
  | zero => intro i; rfl
  | succ n ih =>
    intro i
    unfold JavaClassFile.get_method_from
    have hi := h i
    cases h1 : k1.methods[i]? with
    | none =>
      cases h2 : k2.methods[i]? with
      | none => rfl
      | some a2 => simp [h1, h2] at hi
    | some a1 =>
      cases h2 : k2.methods[i]? with
      | none => simp [h1, h2] at hi
      | some a2 =>
        simp only [h1, h2, Option.map_some', Option.some.injEq] at hi
        simp only [hi, hp, ih]

/-- The methods of a class file after one attribute buffer has been overwritten:
at every position the same method as before, up to the content of that buffer. -/
theorem setInfoAt_methods (k : JavaClassFile) (p : AttrPtr) (info : List Nat) (j : Nat) :
    ((k.setInfoAt p info).methods[j]? = none ∧ k.methods[j]? = none) ∨
    ∃ me1 me, (k.setInfoAt p info).methods[j]? = some me1 ∧ k.methods[j]? = some me ∧
      me1.name_index = me.name_index ∧ me1.attributes_count = me.attributes_count ∧
      ∀ i : Nat, (me1.attributes[i]?).map (fun a : AttributeInfo => a.attribute_name_index)
               = (me.attributes[i]?).map (fun a : AttributeInfo => a.attribute_name_index) := by
  have same : (k.methods[j]? = none ∧ k.methods[j]? = none) ∨
      ∃ me1 me, k.methods[j]? = some me1 ∧ k.methods[j]? = some me ∧
        me1.name_index = me.name_index ∧ me1.attributes_count = me.attributes_count ∧
        ∀ i : Nat, (me1.attributes[i]?).map (fun a : AttributeInfo => a.attribute_name_index)
                 = (me.attributes[i]?).map (fun a : AttributeInfo => a.attribute_name_index) := by
    cases hj : k.methods[j]? with
    | none => exact Or.inl ⟨rfl, rfl⟩
    | some me => exact Or.inr ⟨me, me, rfl, rfl, rfl, rfl, fun i => rfl⟩
  unfold JavaClassFile.setInfoAt
  cases hm : k.methods[p.methodPos]? with
  | none => simpa using same
  | some me0 =>
    cases ha : me0.attributes[p.attrPos]? with
    | none => simpa [ha] using same
    | some a0 =>
      simp only [ha]
      by_cases hj : p.methodPos = j
      · subst hj
        have h1 : p.methodPos < k.methods.length := by
          rcases List.getElem?_eq_some_iff.mp hm with ⟨hlt, _⟩
          exact hlt
        have h2 : p.attrPos < me0.attributes.length := by
          rcases List.getElem?_eq_some_iff.mp ha with ⟨hlt, _⟩
          exact hlt
        let a1 : AttributeInfo := { a0 with info := info }
        let me1 : MethodEntry := { me0 with attributes := me0.attributes.set p.attrPos a1 }
        refine Or.inr ⟨me1, me0, ?_, hm, rfl, rfl, ?_⟩
        · simp only [List.getElem?_set, h1, if_true]
        · intro i
          show Option.map _ (me0.attributes.set p.attrPos a1)[i]? = _
          simp only [List.getElem?_set]
          by_cases hi : p.attrPos = i
          · subst hi
            simp [h2, ha, a1]
          · simp [hi]
      · simp only [List.getElem?_set, hj, if_false]
        exact same

theorem get_method_setInfoAt (k : JavaClassFile) (p : AttrPtr) (info : List Nat) (name : Text) :
    (k.setInfoAt p info).get_method name = k.get_method name := by
  unfold JavaClassFile.get_method
  rw [setInfoAt_methods_count]
  apply get_method_from_congr
  · exact setInfoAt_const_pool k p info
  · intro i
    rcases setInfoAt_methods k p info i with ⟨h1, h2⟩ | ⟨me1, me, h1, h2, h3, _, _⟩
    · rw [h1, h2]
    · rw [h1, h2]
      simp [h3]

/-- Call `get_attribute(klass->const_pool, "Code")` on the method at a position. -/
theorem codeAttr_setInfoAt (k : JavaClassFile) (p : AttrPtr) (info : List Nat) (j : Nat) :
    ((k.setInfoAt p info).methods[j]?).bind
        (fun me => me.get_attribute (k.setInfoAt p info).const_pool "Code")
      = (k.methods[j]?).bind (fun me => me.get_attribute k.const_pool "Code") := by
  rcases setInfoAt_methods k p info j with ⟨h1, h2⟩ | ⟨me1, me, h1, h2, _, h4, h5⟩
  · rw [h1, h2]
    rfl
  · rw [h1, h2, setInfoAt_const_pool]
    simp only [Option.some_bind, MethodEntry.get_attribute, h4]
    exact get_attribute_from_congr me1 me _ _ h5 _ _

/-! ### Entering `run` -/

theorem load_store (c : CodeAttribute) (info : List Nat) (h1 : c.max_stack < 256 ^ 2)
    (h2 : c.max_locals < 256 ^ 2) (h3 : c.code_length < 256 ^ 4) :
    CodeAttribute.load (c.store info) = some c := by
  have l2 : ∀ x, (toBytes 2 x).length = 2 := fun x => toBytes_length 2 x
  have l4 : ∀ x, (toBytes 4 x).length = 4 := fun x => toBytes_length 4 x
  have e1 : (c.store info).take 2 = toBytes 2 c.max_stack := by
    unfold CodeAttribute.store
    rw [List.append_assoc, List.append_assoc, List.take_append_eq_append_take]
    simp [l2]
  have e2 : ((c.store info).drop 2).take 2 = toBytes 2 c.max_locals := by
    unfold CodeAttribute.store
    rw [List.append_assoc, List.append_assoc, List.drop_append_eq_append_drop]
    simp [l2, List.take_append_eq_append_take]
  have e3 : ((c.store info).drop 4).take 4 = toBytes 4 c.code_length := by
    unfold CodeAttribute.store
    rw [List.append_assoc, List.append_assoc, List.drop_append_eq_append_drop]
    simp [l2, l4, List.take_append_eq_append_take, List.drop_append_eq_append_drop]
  have e4 : 8 ≤ (c.store info).length := by
    unfold CodeAttribute.store
    simp [l2, l4]
    omega
  unfold CodeAttribute.load
  rw [if_pos e4, e1, e2, e3, ofBytes_toBytes, ofBytes_toBytes, ofBytes_toBytes,
    Nat.mod_eq_of_lt h1, Nat.mod_eq_of_lt h2, Nat.mod_eq_of_lt h3]

theorem store_drop (c : CodeAttribute) (info : List Nat) :
    (c.store info).drop 8 = info.drop 8 := by
  have l2 : ∀ x, (toBytes 2 x).length = 2 := fun x => toBytes_length 2 x
  have l4 : ∀ x, (toBytes 4 x).length = 4 := fun x => toBytes_length 4 x
  unfold CodeAttribute.store
  rw [List.drop_append_eq_append_drop]
  simp [l2, l4]

theorem load_swapFields_store (c : CodeAttribute) (info : List Nat) :
    CodeAttribute.load (c.swapFields.store info) = some c.swapFields :=
  load_store _ _ (swapEndianness_lt 2 _) (swapEndianness_lt 2 _) (swapEndianness_lt 4 _)

theorem codeAttributeOf_eq (m : Machine) (e a : Nat)
    (h : (m.klass.methods[e]?).bind (fun me => me.get_attribute m.klass.const_pool "Code")
          = some (some a)) :
    codeAttributeOf e m = Res.ok { methodPos := e, attrPos := a } m := by
  unfold codeAttributeOf
  cases hm : m.klass.methods[e]? with
  | none => simp [hm] at h
  | some me =>
    simp only [hm, Option.some_bind] at h
    simp only [h]

theorem derefCodeAttribute_eq (m : Machine) (p : AttrPtr) (info : List Nat) (c : CodeAttribute)
    (h : m.klass.infoAt p = some info) (hl : CodeAttribute.load info = some c) :
    derefCodeAttribute p m = Res.ok c m := by
  simp only [derefCodeAttribute, h, hl]

/-- The state in which the loop of `run` starts. -/
theorem hasCode_entered (k : JavaClassFile) (name : Text) (p : AttrPtr) (info info1 : List Nat)
    (h : HasCode k name p info) : HasCode (k.setInfoAt p info1) name p info1 := by
  rcases h with ⟨h1, h2, h3⟩
  refine ⟨?_, ?_, ?_⟩
  · rw [get_method_setInfoAt]
    exact h1
  · rw [codeAttr_setInfoAt]
    exact h2
  · exact infoAt_setInfoAt k p info info1 h3

theorem run_enter (d : Nat) (name : Text) (m : Machine) (p : AttrPtr) (info : List Nat)
    (c0 : CodeAttribute) (h : HasCode m.klass name p info)
    (hl : CodeAttribute.load info = some c0) :
    JavaExecutor.run (d + 1) name m =
      JavaExecutor.loop (JavaExecutor.run d) p (info.drop 8) loopBound 0
        { m with klass := m.klass.setInfoAt p (c0.swapFields.store info)
                 cout := m.cout ++ ("[" ++ name ++ "] " ++ "Length of LVA: "
                           ++ Nat.repr c0.swapFields.max_locals ++ "\n") } := by
  have h' := hasCode_entered _ _ _ _ (c0.swapFields.store info) h
  rcases h with ⟨h1, h2, h3⟩
  rcases h' with ⟨h1', h2', h3'⟩
  have ep : p = { methodPos := p.methodPos, attrPos := p.attrPos } := rfl
  have ca1 := codeAttributeOf_eq m p.methodPos p.attrPos h2
  rw [← ep] at ca1
  have d1 := derefCodeAttribute_eq m p info c0 h3 hl
  unfold JavaExecutor.run
  simp only [bind_apply, JavaExecutor.get_method, h1, JavaExecutor.get_code_attribute, ca1, d1, h3]
  have d2 : ∀ m1 : Machine, m1.klass = m.klass.setInfoAt p (c0.swapFields.store info) →
      derefCodeAttribute p m1 = Res.ok c0.swapFields m1 := by
    intro m1 hk
    exact derefCodeAttribute_eq m1 p _ _ (by rw [hk]; exact h3') (load_swapFields_store c0 info)
  have ca2 : ∀ m1 : Machine, m1.klass = m.klass.setInfoAt p (c0.swapFields.store info) →
      codeAttributeOf p.methodPos m1 = Res.ok p m1 := by
    intro m1 hk
    have := codeAttributeOf_eq m1 p.methodPos p.attrPos (by rw [hk]; exact h2')
    rw [← ep] at this
    exact this
  rw [d2 _ rfl]
  simp only [print, JavaExecutor.get_code, bind_apply]
  rw [ca2 _ rfl]
  simp only [h3', store_drop]

/-! ### The loop of `run` -/

theorem loop_step (run : Text → M Machine Nat) (p : AttrPtr) (code : List Nat)
    (n cursor : Nat) (m : Machine) (c : CodeAttribute)
    (hd : derefCodeAttribute p m = Res.ok c m) (hlt : cursor < c.code_length) :
    JavaExecutor.loop run p code (n + 1) cursor m =
      match JavaExecutor.step run code cursor m with
      | Res.ok c1 m1 => JavaExecutor.loop run p code n c1 m1
      | Res.fail e m1 => Res.fail e m1 := by
  simp only [JavaExecutor.loop, bind_apply, hd, hlt, if_true]
  cases JavaExecutor.step run code cursor m <;> rfl

theorem loop_done (run : Text → M Machine Nat) (p : AttrPtr) (code : List Nat)
    (n cursor : Nat) (m : Machine) (c : CodeAttribute)
    (hd : derefCodeAttribute p m = Res.ok c m) (hge : ¬ cursor < c.code_length) :
    JavaExecutor.loop run p code n cursor m = Res.ok cursor m := by
  cases n <;> simp only [JavaExecutor.loop, bind_apply, hd, hge, if_false, pure_apply]

theorem derefCodeAttribute_congr (p : AttrPtr) (m m1 : Machine) (c : CodeAttribute)
    (hk : m1.klass = m.klass) (hd : derefCodeAttribute p m = Res.ok c m) :
    derefCodeAttribute p m1 = Res.ok c m1 := by
  unfold derefCodeAttribute at hd ⊢
  rw [hk]
  cases hi : m.klass.infoAt p with
  | none => simp [hi] at hd
  | some info =>
    simp only [hi] at hd ⊢
    cases hl : CodeAttribute.load info with
    | none => simp [hl] at hd
    | some c1 =>
      simp only [hl, Res.ok.injEq, and_true] at hd ⊢
      exact hd

/-- A call of `step` on code without the INVOKESTATIC opcode leaves the class file
as it was and advances the cursor by at most three. -/
theorem step_safe_of_no_invokestatic (run : Text → M Machine Nat) (code : List Nat)
    (hns : ∀ b ∈ code, b ≠ INVOKESTATIC) (cursor : Nat) (m : Machine) (c1 : Nat) (m1 : Machine)
    (hs : JavaExecutor.step run code cursor m = Res.ok c1 m1) :
    m1.klass = m.klass ∧ c1 ≤ cursor + 3 := by
  rcases step_post run code cursor m c1 m1 hs with ⟨op, hop, hcase⟩
  have hne := hns op (List.getElem?_mem hop)
  rcases hcase with ⟨_, h1, h2⟩ | ⟨h1, _⟩ | ⟨_, h1, h2⟩ | ⟨_, h1, h2⟩
  · exact ⟨h2, by omega⟩
  · exact absurd h1 hne
  · exact ⟨h2, by omega⟩
  · exact ⟨h2, by omega⟩

/-- A call of `step` that returns although `run` cannot be entered leaves the class
file as it was and advances the cursor by at most three. -/
theorem step_safe_of_depth_zero (code : List Nat) (cursor : Nat) (m : Machine) (c1 : Nat)
    (m1 : Machine) (hs : JavaExecutor.step (JavaExecutor.run 0) code cursor m = Res.ok c1 m1) :
    m1.klass = m.klass ∧ c1 ≤ cursor + 3 := by
  rcases step_post (JavaExecutor.run 0) code cursor m c1 m1 hs with ⟨op, hop, hcase⟩
  rcases hcase with ⟨_, h1, h2⟩ | ⟨_, _, callee, s, a, hrun⟩ | ⟨_, h1, h2⟩ | ⟨_, h1, h2⟩
  · exact ⟨h2, by omega⟩
  · simp [JavaExecutor.run, raise_apply] at hrun
  · exact ⟨h2, by omega⟩
  · exact ⟨h2, by omega⟩

/-- When no call of `step` changes the class file or advances the cursor by more
than three, the loop ends with the cursor at the code length or at most two bytes
past it, and the class file as it was. -/
theorem loop_bounds (run : Text → M Machine Nat) (p : AttrPtr) (code : List Nat)
    (hsafe : ∀ (cursor : Nat) (m : Machine) (c1 : Nat) (m1 : Machine),
      JavaExecutor.step run code cursor m = Res.ok c1 m1 → m1.klass = m.klass ∧ c1 ≤ cursor + 3)
    (ca : CodeAttribute) :
    ∀ (n cursor : Nat) (m : Machine) (c : Nat) (m1 : Machine),
      derefCodeAttribute p m = Res.ok ca m →
      JavaExecutor.loop run p code n cursor m = Res.ok c m1 →
      ca.code_length ≤ c ∧ (c = cursor ∨ c ≤ ca.code_length + 2) ∧ m1.klass = m.klass := by
  intro n
  induction n with
  | zero =>
    intro cursor m c m1 hd h
    by_cases hlt : cursor < ca.code_length
    · simp [JavaExecutor.loop, bind_apply, hd, hlt, raise_apply] at h
    · rw [loop_done run p code 0 cursor m ca hd hlt] at h
      cases h
      exact ⟨by omega, Or.inl rfl, rfl⟩
  | succ n ih =>
    intro cursor m c m1 hd h
    by_cases hlt : cursor < ca.code_length
    · rw [loop_step run p code n cursor m ca hd hlt] at h
      cases hs : JavaExecutor.step run code cursor m with
      | fail e s => simp [hs] at h
      | ok c1 s =>
        rw [hs] at h
        simp only at h
        have hk := hsafe cursor m c1 s hs
        rcases ih c1 s c m1 (derefCodeAttribute_congr p m s ca hk.1 hd) h with ⟨g1, g2, g3⟩
        refine ⟨g1, Or.inr ?_, by rw [g3, hk.1]⟩
        rcases g2 with g2 | g2
        · omega
        · exact g2
    · rw [loop_done run p code (n + 1) cursor m ca hd hlt] at h
      cases h
      exact ⟨by omega, Or.inl rfl, rfl⟩

/-! ### A file with a wrong magic number -/

/-- The constructor on a stream of at least ten bytes whose first four do not decode to
0xCAFEBABE: it writes one line and returns, with the members as initialised. -/
theorem new_bad_magic (filename : Text) (b0 b1 b2 b3 b4 b5 b6 b7 b8 b9 : Nat) (rest : List Nat)
    (n : Nat) (cout cerr : Text)
    (h0 : b0 < 256) (h1 : b1 < 256) (h2 : b2 < 256) (h3 : b3 < 256)
    (hmagic : 16777216 * b0 + 65536 * b1 + 256 * b2 + b3 ≠ 0xCAFEBABE) :
    JavaClassFile.new filename
        { stream := { rest := b0 :: b1 :: b2 :: b3 :: b4 :: b5 :: b6 :: b7 :: b8 :: b9 :: rest
                      consumed := n }
          cout := cout, cerr := cerr } =
      Res.ok
        (JavaClassFile.initial
          { magic := 16777216 * b0 + 65536 * b1 + 256 * b2 + b3
            minor := swapEndianness 2 (ofBytes [b4, b5])
            major := swapEndianness 2 (ofBytes [b6, b7])
            constantPoolCount := swapEndianness 2 (ofBytes [b8, b9]) })
        { stream := { rest := rest, consumed := n + 10 }
          cout := cout ++ (filename ++ ": not a Java Class file!" ++ "\n"), cerr := cerr } := by
  have hm := swap4_bytes b0 b1 b2 b3 h0 h1 h2 h3
  simp only [JavaClassFile.new, bind_apply, readObject, readBytes, List.take, List.drop,
    List.length_cons, List.length_nil, if_true, pure_apply, hm]
  simp [hmagic, bind_apply, Reader.print, pure_apply]

/-! ### Both outcomes -/

theorem ends_bind {σ α β : Type} (x : M σ α) (f : α → M σ β) (s : σ) (Qok : β → σ → Prop)
    (Qfail : Fault → σ → Prop) :
    Ends (x >>= f) s Qok Qfail ↔ Ends x s (fun a s1 => Ends (f a) s1 Qok Qfail) Qfail := by
  unfold Ends
  rw [bind_apply]
  cases x s <;> rfl

theorem ends_pure {σ α : Type} (a : α) (s : σ) (Qok : α → σ → Prop)
    (Qfail : Fault → σ → Prop) : Ends (pure a : M σ α) s Qok Qfail ↔ Qok a s := by
  unfold Ends
  rw [pure_apply]

theorem ends_raise {σ α : Type} (f : Fault) (s : σ) (Qok : α → σ → Prop)
    (Qfail : Fault → σ → Prop) : Ends (raise f : M σ α) s Qok Qfail ↔ Qfail f s := by
  unfold Ends
  rw [raise_apply]

theorem ends_orUndefined {σ α : Type} (o : Option α) (s : σ) (Qok : α → σ → Prop)
    (Qfail : Fault → σ → Prop) :
    Ends (orUndefined o : M σ α) s Qok Qfail ↔
      (∀ a, o = some a → Qok a s) ∧ (o = none → Qfail Fault.undefined s) := by
  cases o with
  | none => simp [Ends, orUndefined_none]
  | some v => simp [Ends, orUndefined_some]

theorem ends_ite {σ α : Type} (c : Prop) [Decidable c] (x y : M σ α) (s : σ)
    (Qok : α → σ → Prop) (Qfail : Fault → σ → Prop) :
    Ends (if c then x else y) s Qok Qfail ↔
      (c → Ends x s Qok Qfail) ∧ (¬ c → Ends y s Qok Qfail) := by
  by_cases h : c <;> simp [h]

theorem ends_print (t : Text) (s : Machine) (Qok : Unit → Machine → Prop)
    (Qfail : Fault → Machine → Prop) :
    Ends (print t) s Qok Qfail ↔ Qok () { s with cout := s.cout ++ t } := by
  simp only [Ends, print]

theorem ends_push (a : Action) (s : Machine) (Qok : Unit → Machine → Prop)
    (Qfail : Fault → Machine → Prop) :
    Ends (push a) s Qok Qfail ↔ Qok () { s with action_stack := a :: s.action_stack } := by
  simp only [Ends, push]

theorem ends_countStep (s : Machine) (Qok : Unit → Machine → Prop)
    (Qfail : Fault → Machine → Prop) :
    Ends countStep s Qok Qfail ↔ Qok () { s with steps := s.steps + 1 } := by
  simp only [Ends, countStep]

theorem ends_pop (s : Machine) (Qok : Unit → Machine → Prop) (Qfail : Fault → Machine → Prop) :
    Ends pop s Qok Qfail ↔
      (∀ a rest, s.action_stack = a :: rest → Qok () { s with action_stack := rest }) ∧
      (s.action_stack = [] → Qfail Fault.undefined s) := by
  unfold Ends pop
  cases hs : s.action_stack with
  | nil => simp
  | cons a rest =>
    simp only [List.cons.injEq, and_imp, reduceCtorEq, false_implies, and_true]
    constructor
    · intro h a1 r1 _ hr
      subst hr
      exact h
    · intro h
      exact h a rest rfl rfl

theorem ends_topConstantAction (s : Machine) (Qok : ConstantPoolEntry → Machine → Prop)
    (Qfail : Fault → Machine → Prop) :
    Ends topConstantAction s Qok Qfail ↔
      (∀ id e rest, s.action_stack = Action.ConstantAction id e :: rest → Qok e s) ∧
      ((∀ id e rest, s.action_stack ≠ Action.ConstantAction id e :: rest) →
        Qfail Fault.undefined s) := by
  unfold Ends topConstantAction
  cases hs : s.action_stack with
  | nil => simp
  | cons a rest =>
    cases a with
    | StaticAction id cn fn => simp
    | ValueAction id v => simp
    | ConstantAction id e =>
      simp only [List.cons.injEq, Action.ConstantAction.injEq, and_imp, ne_eq]
      constructor
      · intro h
        refine ⟨?_, ?_⟩
        · intro id1 e1 rest1 _ he _
          subst he
          exact h
        · intro hne
          exact absurd ⟨⟨rfl, rfl⟩, rfl⟩ (hne id e rest)
      · intro h
        exact h.1 id e rest rfl rfl rfl

theorem ends_poolEntry (idx : Int) (s : Machine) (Qok : ConstantPoolEntry → Machine → Prop)
    (Qfail : Fault → Machine → Prop) :
    Ends (poolEntry idx) s Qok Qfail ↔
      (∀ e, entryAt s.klass.const_pool idx = some e → Qok e s) ∧
      (entryAt s.klass.const_pool idx = none → Qfail Fault.undefined s) := by
  unfold Ends poolEntry
  cases h : entryAt s.klass.const_pool idx with
  | none => simp
  | some v => simp

theorem ends_resolveReference (idx : Nat) (s : Machine) (Qok : Resolved → Machine → Prop)
    (Qfail : Fault → Machine → Prop) :
    Ends (resolveReference idx) s Qok Qfail ↔
      (∀ r, resolveAt s.klass.const_pool idx = some r → Qok r s) ∧
      (resolveAt s.klass.const_pool idx = none → Qfail Fault.undefined s) := by
  unfold Ends resolveReference
  cases h : resolveAt s.klass.const_pool idx with
  | none => simp
  | some v => simp

/-- What a call of `step` on an opcode other than INVOKESTATIC does, however it ends: it is
counted once, leaves the class file as it was, returns with the cursor advanced by one plus
the operand width, or stops in a fault raised by the program or an undefined access. -/
theorem step_ends (run : Text → M Machine Nat) (codeptr : List Nat) (cursor : Nat)
    (m : Machine) (hno : codeptr[cursor]? ≠ some INVOKESTATIC) :
    Ends (JavaExecutor.step run codeptr cursor) m
      (fun c1 s => ∃ op, codeptr[cursor]? = some op ∧ c1 = cursor + 1 + operandWidth op ∧
        s.klass = m.klass ∧ s.steps = m.steps + 1)
      (fun e s => e ≠ Fault.outOfFuel ∧ s.klass = m.klass ∧ s.steps = m.steps + 1) := by
  simp only [JavaExecutor.step, ends_bind, ends_countStep, ends_orUndefined, ends_ite, ends_pure,
    ends_raise, ends_print, ends_push, ends_pop, ends_topConstantAction, ends_poolEntry,
    ends_resolveReference]
  refine ⟨?_, ?_⟩
  · intro op hop
    have h0 : op ≠ INVOKESTATIC := by
      intro h
      exact hno (by rw [hop, h])
    by_cases h1 : op = GETSTATIC
    · subst h1
      simp [hop, operandWidth, GETSTATIC, LDC, SIPUSH, ILOAD_1, INVOKEVIRTUAL, INVOKESTATIC, RETURN]
    by_cases h2 : op = LDC
    · subst h2
      simp [hop, operandWidth, GETSTATIC, LDC, SIPUSH, ILOAD_1, INVOKEVIRTUAL, INVOKESTATIC, RETURN]
    by_cases h3 : op = INVOKEVIRTUAL
    · subst h3
      simp [hop, operandWidth, GETSTATIC, LDC, SIPUSH, ILOAD_1, INVOKEVIRTUAL, INVOKESTATIC, RETURN]
    by_cases h4 : op = SIPUSH
    · subst h4
      simp [hop, operandWidth, GETSTATIC, LDC, SIPUSH, ILOAD_1, INVOKEVIRTUAL, INVOKESTATIC, RETURN]
    by_cases h5 : op = ILOAD_1
    · subst h5
      simp [hop, operandWidth, GETSTATIC, LDC, SIPUSH, ILOAD_1, INVOKEVIRTUAL, INVOKESTATIC, RETURN]
    by_cases h6 : op = RETURN
    · subst h6
      simp [hop, operandWidth, GETSTATIC, LDC, SIPUSH, ILOAD_1, INVOKEVIRTUAL, INVOKESTATIC, RETURN]
    simp [h0, h1, h2, h3, h4, h5, h6]
  · intro _
    simp
/-- On code in which no decoded opcode is INVOKESTATIC the loop of `run` ends within its
bound, after at most as many calls of `step` as there are code bytes left, in a result or in
a fault of the program. -/
theorem loop_ends (run : Text → M Machine Nat) (p : AttrPtr) (code : List Nat)
    (ca : CodeAttribute) :
    ∀ (k n cursor : Nat) (m : Machine),
      derefCodeAttribute p m = Res.ok ca m → ca.code_length - cursor ≤ k → k ≤ n →
      INVOKESTATIC ∉ opcodesFrom code ca.code_length k cursor →
      Ends (JavaExecutor.loop run p code n cursor) m
        (fun _ s => s.steps ≤ m.steps + k)
        (fun e s => e ≠ Fault.outOfFuel ∧ s.steps ≤ m.steps + k) := by
  intro k
  induction k with
  | zero =>
    intro n cursor m hd hk _ _
    have hge : ¬ cursor < ca.code_length := by omega
    unfold Ends
    rw [loop_done run p code n cursor m ca hd hge]
    exact Nat.le_refl _
  | succ k ih =>
    intro n cursor m hd hk hn hops
    by_cases hlt : cursor < ca.code_length
    · obtain ⟨n1, rfl⟩ : ∃ n1, n = n1 + 1 := ⟨n - 1, by omega⟩
      have hno : code[cursor]? ≠ some INVOKESTATIC := by
        intro h
        apply hops
        simp [opcodesFrom, hlt, h]
      have hs := step_ends run code cursor m hno
      unfold Ends at hs ⊢
      rw [loop_step run p code n1 cursor m ca hd hlt]
      cases hstep : JavaExecutor.step run code cursor m with
      | fail e s =>
        rw [hstep] at hs
        simp only at hs ⊢
        exact ⟨hs.1, by omega⟩
      | ok c1 s =>
        rw [hstep] at hs
        simp only at hs ⊢
        rcases hs with ⟨op, hop, hc1, hklass, hsteps⟩
        have hops1 : INVOKESTATIC ∉ opcodesFrom code ca.code_length k c1 := by
          intro h
          apply hops
          simp only [opcodesFrom, hlt, if_true, hop]
          rw [hc1] at h
          exact List.mem_cons_of_mem _ h
        have ih1 := ih n1 c1 s (derefCodeAttribute_congr p m s ca hklass hd) (by omega) (by omega)
          hops1
        unfold Ends at ih1
        cases hl : JavaExecutor.loop run p code n1 c1 s with
        | ok c2 s2 =>
          rw [hl] at ih1
          simp only at ih1 ⊢
          omega
        | fail e s2 =>
          rw [hl] at ih1
          simp only at ih1 ⊢
          exact ⟨ih1.1, by omega⟩
    · unfold Ends
      rw [loop_done run p code n cursor m ca hd hlt]
      simp only
      omega

/-! ### INVOKESTATIC -/

/-- The state in which `step` calls `run` for INVOKESTATIC: the caller's state with the step
counted and the trace lines written. -/
theorem step_INVOKESTATIC (run : Text → M Machine Nat) (codeptr : List Nat)
    (cursor b1 b2 : Nat) (m : Machine) (r : Resolved) (t1 t2 t3 t4 t5 t6 name : Text)
    (hop : codeptr[cursor]? = some 0xB8)
    (h1 : codeptr[cursor + 1]? = some b1) (h2 : codeptr[cursor + 1 + 1]? = some b2)
    (hb1 : b1 < 256) (hb2 : b2 < 256)
    (hr : resolveAt m.klass.const_pool (256 * b1 + b2) = some r)
    (ht1 : r.entry.show = some t1) (ht2 : r.class_index.show = some t2)
    (ht3 : r.classname_index.show = some t3) (ht4 : r.name_type_index.show = some t4)
    (ht5 : r.name.show = some t5) (ht6 : r.descriptor.show = some t6)
    (hname : r.name.Utf8_bytes = some name) :
    JavaExecutor.step run codeptr cursor m =
      match run name
          { m with cout := m.cout ++ ("Invoke static!" ++ "\n") ++ ("Class: " ++ t1 ++ "\n")
                     ++ ("Class index: " ++ t2 ++ "\n") ++ ("Class name: " ++ t3 ++ "\n")
                     ++ ("Name and type: " ++ t4 ++ "\n") ++ ("|- Name: " ++ t5 ++ "\n")
                     ++ ("|- Descriptor: " ++ t6 ++ "\n")
                   steps := m.steps + 1 } with
      | Res.ok _ s => Res.ok (cursor + 3) s
      | Res.fail e s => Res.fail e s := by
  simp only [JavaExecutor.step, bind_apply, countStep, hop, orUndefined, pure_apply,
    GETSTATIC, LDC, SIPUSH, ILOAD_1, INVOKEVIRTUAL, INVOKESTATIC, RETURN, Nat.reduceEqDiff,
    if_false, if_true, print, codeWord_eq _ _ _ _ h1 h2, swap2_bytes b1 b2 hb1 hb2,
    resolveReference, hr, ht1, ht2, ht3, ht4, ht5, ht6, hname]
  cases run name _ <;> rfl

/-! ### Reading pool entries -/

/-- A tag byte other than the six that `read` handles: the read consumes it, writes the
diagnostic and stops in `exit(1)`. -/
theorem read_unknown_tag (tag : Nat) (rest : List Nat) (r : Reader)
    (hstream : r.stream.rest = tag :: rest)
    (h1 : tag ≠ 1) (h7 : tag ≠ 7) (h8 : tag ≠ 8) (h9 : tag ≠ 9) (h10 : tag ≠ 10)
    (h12 : tag ≠ 12) :
    ConstantPoolEntry.read r =
      Res.fail (Fault.exit 1)
        { r with stream := { rest := rest, consumed := r.stream.consumed + 1 }
                 cerr := r.cerr ++ ("Error: Unknown constant pool element with tag: "
                           ++ Nat.repr tag ++ "\n") } := by
  simp [ConstantPoolEntry.read, bind_apply, readObject, readBytes, pure_apply, ofBytes, hstream,
    ConstantPoolTypes.Methodref, ConstantPoolTypes.Class, ConstantPoolTypes.NameAndType,
    ConstantPoolTypes.Utf8, ConstantPoolTypes.Fieldref, ConstantPoolTypes.String,
    Reader.printErr, raise_apply, h1, h7, h8, h9, h10, h12]

theorem readEntries_succ (n : Nat) (r : Reader) :
    readEntries (n + 1) r =
      match ConstantPoolEntry.read r with
      | Res.ok e r1 =>
        match readEntries n r1 with
        | Res.ok es r2 => Res.ok (e :: es) r2
        | Res.fail f r2 => Res.fail f r2
      | Res.fail f r1 => Res.fail f r1 := by
  simp only [readEntries, bind_apply, pure_apply]
  cases ConstantPoolEntry.read r with
  | fail f r1 => rfl
  | ok e r1 =>
    simp only
    cases readEntries n r1 <;> rfl

/-- The loop of the pool constructor stops at the first entry whose read fails. -/
theorem readEntries_fails_at (f : Fault) (r2 : Reader) :
    ∀ (k j : Nat) (r0 r1 : Reader) (es : List ConstantPoolEntry),
      readEntries k r0 = Res.ok es r1 → ConstantPoolEntry.read r1 = Res.fail f r2 →
      readEntries (k + 1 + j) r0 = Res.fail f r2 := by
  intro k
  induction k with
  | zero =>
    intro j r0 r1 es hk hread
    simp only [readEntries, pure_apply, Res.ok.injEq] at hk
    rcases hk with ⟨_, rfl⟩
    have e : 0 + 1 + j = j + 1 := by omega
    rw [e, readEntries_succ, hread]
  | succ k ih =>
    intro j r0 r1 es hk hread
    rw [readEntries_succ] at hk
    have e : k + 1 + 1 + j = (k + 1 + j) + 1 := by omega
    rw [e, readEntries_succ]
    cases h0 : ConstantPoolEntry.read r0 with
    | fail f0 ra => simp [h0] at hk
    | ok e0 ra =>
      rw [h0] at hk
      simp only at hk ⊢
      cases h1 : readEntries k ra with
      | fail f1 rb => simp [h1] at hk
      | ok es1 rb =>
        rw [h1] at hk
        simp only [Res.ok.injEq] at hk
        rcases hk with ⟨_, rfl⟩
        rw [ih j ra rb es1 h1 hread]

/-! ### Lookup of a method by name -/

theorem get_method_from_succ (k : JavaClassFile) (name : Text) (n i : Nat) (t : Text)
    (h : k.methodName i = some t) :
    JavaClassFile.get_method_from k name (n + 1) i =
      if t = name then some (some i) else JavaClassFile.get_method_from k name n (i + 1) := by
  unfold JavaClassFile.methodName at h
  rw [JavaClassFile.get_method_from]
  cases hm : k.methods[i]? with
  | none => simp [hm] at h
  | some me =>
    simp only [hm] at h ⊢
    cases he : entryAt k.const_pool ((me.name_index : Int) - 1) with
    | none => simp [he] at h
    | some e =>
      simp only [he] at h ⊢
      simp only [h]

/-- The scan of `get_method` over the positions `i, …, i + n - 1`, all of which have a name:
it returns the first position whose name is `name`, or null when there is none. -/
theorem get_method_from_spec (k : JavaClassFile) (name : Text) :
    ∀ (n i : Nat), (∀ l, i ≤ l → l < i + n → ∃ t, k.methodName l = some t) →
      (∃ j, i ≤ j ∧ j < i + n ∧ k.methodName j = some name ∧
          (∀ l, i ≤ l → l < j → k.methodName l ≠ some name) ∧
          JavaClassFile.get_method_from k name n i = some (some j)) ∨
      ((∀ l, i ≤ l → l < i + n → k.methodName l ≠ some name) ∧
          JavaClassFile.get_method_from k name n i = some none) := by
  intro n
  induction n with
  | zero =>
    intro i _
    refine Or.inr ⟨?_, rfl⟩
    intro l h1 h2
    omega
  | succ n ih =>
    intro i hwf
    rcases hwf i (Nat.le_refl i) (by omega) with ⟨t, ht⟩
    rw [get_method_from_succ k name n i t ht]
    by_cases heq : t = name
    · subst heq
      refine Or.inl ⟨i, Nat.le_refl i, by omega, ht, ?_, by simp⟩
      intro l h1 h2
      omega
    · simp only [heq, if_false]
      have hwf1 : ∀ l, i + 1 ≤ l → l < i + 1 + n → ∃ t, k.methodName l = some t :=
        fun l h1 h2 => hwf l (by omega) (by omega)
      have hi : k.methodName i ≠ some name := by
        rw [ht]
        intro h
        exact heq (Option.some.inj h)
      rcases ih (i + 1) hwf1 with ⟨j, h1, h2, h3, h4, h5⟩ | ⟨h1, h2⟩
      · refine Or.inl ⟨j, by omega, by omega, h3, ?_, h5⟩
        intro l hl1 hl2
        by_cases hli : l = i
        · rw [hli]
          exact hi
        · exact h4 l (by omega) hl2
      · refine Or.inr ⟨?_, h2⟩
        intro l hl1 hl2
        by_cases hli : l = i
        · rw [hli]
          exact hi
        · exact h1 l (by omega) (by omega)

/-! ### Reading a Utf8 entry and an attribute -/

theorem byteChar_toNat (b : Nat) (h : b < 256) : (byteChar b).toNat = b := by
  have hv : b.isValidChar := Or.inl (by omega)
  simp only [byteChar, Char.ofNat, hv, dif_pos]
  rfl

theorem byteChars_toNat (bytes : List Nat) (h : ∀ b ∈ bytes, b < 256) :
    (bytes.map byteChar).map Char.toNat = bytes := by
  induction bytes with
  | nil => rfl
  | cons b bs ih =>
    simp only [List.map_cons, List.cons.injEq]
    exact ⟨byteChar_toNat b (h b (List.mem_cons_self b bs)),
      ih (fun x hx => h x (List.mem_cons_of_mem b hx))⟩

/-- The loop of the Utf8 branch on a stream that holds the bytes it asks for: it appends
them, one character each, and leaves the stream after them. -/
theorem readUtf8Chars_spec :
    ∀ (bytes rest : List Nat) (tmp : Option Nat) (acc : Text) (n : Nat) (cout cerr : Text),
      readUtf8Chars bytes.length tmp acc
          { stream := { rest := bytes ++ rest, consumed := n }, cout := cout, cerr := cerr } =
        Res.ok (String.mk (acc.data ++ bytes.map byteChar))
          { stream := { rest := rest, consumed := n + bytes.length }, cout := cout
            cerr := cerr } := by
  intro bytes
  induction bytes with
  | nil =>
    intro rest tmp acc n cout cerr
    simp [readUtf8Chars, pure_apply]
  | cons b bs ih =>
    intro rest tmp acc n cout cerr
    simp only [List.length_cons, readUtf8Chars, bind_apply, readBytes, List.cons_append,
      List.take, List.drop, List.length_nil]
    rw [ih rest (some b) (acc.push (byteChar b)) (n + (0 + 1)) cout cerr]
    simp [String.data_push, Nat.add_assoc, Nat.add_comm 1]

/-! ## Claims -/

/-- C1 (as stated, refuted): running `main` of the class file `hiFile`, whose code is
GETSTATIC `System.out`; LDC "Hi"; INVOKEVIRTUAL `println`; RETURN, ends normally with three
lines on standard output, not with the single line "Hi". -/
theorem hello_output_has_three_lines :
    main 1 ["zeravm", "Hi.class"] (fun _ => some hiFile)
        = Res.ok 0 { cout := "[main] Length of LVA: 1\nHi\nReturn!\n", cerr := "", steps := 4 }
      ∧ "[main] Length of LVA: 1\nHi\nReturn!\n" ≠ "Hi\n" := by
  decide!

/-- C1 (amended): for every class file in which the method `name` has a Code attribute with
code length 9 and the code GETSTATIC f; LDC j; INVOKEVIRTUAL q; RETURN, where f resolves to a
field reference, j to a String entry with the text "Hi" and q to `java/io/PrintStream.println`,
`run` on that method returns with the cursor at 9 after four steps and has written exactly three
lines: the line "[name] Length of LVA: max_locals", the line "Hi", the line "Return!". -/
theorem hello_output (d : Nat) (name : Text) (m : Machine) (p : AttrPtr)
    (s1 s0 l1 l0 f1 f0 j q1 q0 si : Nat) (tail : List Nat) (r1 r2 : Resolved) (cn fn : Text)
    (e t : ConstantPoolEntry)
    (hcode : HasCode m.klass name p
      ([s1, s0, l1, l0, 0, 0, 0, 9, 0xB2, f1, f0, 0x12, j, 0xB6, q1, q0, 0xB1] ++ tail))
    (hl1 : l1 < 256) (hl0 : l0 < 256) (hf1 : f1 < 256) (hf0 : f0 < 256)
    (hq1 : q1 < 256) (hq0 : q0 < 256)
    (hr1 : resolveAt m.klass.const_pool (256 * f1 + f0) = some r1)
    (hcn : r1.classname_index.Utf8_bytes = some cn) (hfn : r1.name.Utf8_bytes = some fn)
    (he : entryAt m.klass.const_pool ((j : Int) - 1) = some e)
    (hsi : e.String_string_index = some si)
    (ht : entryAt m.klass.const_pool ((si : Int) - 1) = some t)
    (hhi : t.Utf8_bytes = some "Hi")
    (hr2 : resolveAt m.klass.const_pool (256 * q1 + q0) = some r2)
    (hps : r2.classname_index.Utf8_bytes = some "java/io/PrintStream")
    (hpl : r2.name.Utf8_bytes = some "println") :
    ∃ m1, JavaExecutor.run (d + 1) name m = Res.ok 9 m1 ∧
      m1.cout = m.cout ++ ("[" ++ name ++ "] Length of LVA: " ++ Nat.repr (256 * l1 + l0) ++ "\n"
                  ++ "Hi\n" ++ "Return!\n") ∧
      m1.action_stack = Action.StaticAction ActionID.STATIC cn fn :: m.action_stack ∧
      m1.steps = m.steps + 4 := by
  let info := [s1, s0, l1, l0, 0, 0, 0, 9, 0xB2, f1, f0, 0x12, j, 0xB6, q1, q0, 0xB1] ++ tail
  let c0 : CodeAttribute := ⟨ofBytes [s1, s0], ofBytes [l1, l0], ofBytes [0, 0, 0, 9]⟩
  have hload : CodeAttribute.load info = some c0 := by
    simp [CodeAttribute.load, info, c0]
  rw [run_enter d name m p info c0 hcode hload]
  have hent := hasCode_entered _ _ _ _ (c0.swapFields.store info) hcode
  have hlen : c0.swapFields.code_length = 9 := by
    show swapEndianness 4 (ofBytes [0, 0, 0, 9]) = 9
    decide
  have hloc : c0.swapFields.max_locals = 256 * l1 + l0 := swap2_bytes l1 l0 hl1 hl0
  have hdrop : info.drop 8 = [0xB2, f1, f0, 0x12, j, 0xB6, q1, q0, 0xB1] ++ tail := rfl
  rw [hdrop, hloc]
  generalize hk1 : m.klass.setInfoAt p (c0.swapFields.store info) = k1 at hent
  have hpool : k1.const_pool = m.klass.const_pool := by
    rw [← hk1]
    exact setInfoAt_const_pool _ _ _
  have hd : ∀ m2 : Machine, m2.klass = k1 → derefCodeAttribute p m2 = Res.ok c0.swapFields m2 := by
    intro m2 h2
    exact derefCodeAttribute_eq m2 p _ _ (by rw [h2]; exact hent.2.2) (load_swapFields_store c0 info)
  have hb : loopBound = 4294967292 + 1 + 1 + 1 + 1 := rfl
  rw [hb]
  rw [loop_step _ p _ _ 0 _ _ (hd _ rfl) (by rw [hlen]; decide)]
  rw [step_GETSTATIC _ _ 0 f1 f0 _ r1 cn fn rfl rfl rfl hf1 hf0 (by rw [hpool]; exact hr1) hcn hfn]
  simp only []
  rw [loop_step _ p _ _ 3 _ _ (hd _ rfl) (by rw [hlen]; decide)]
  rw [step_LDC _ _ 3 j _ e rfl rfl (by rw [hpool]; exact he)]
  simp only []
  rw [loop_step _ p _ _ 5 _ _ (hd _ rfl) (by rw [hlen]; decide)]
  rw [step_INVOKEVIRTUAL_println _ _ 5 q1 q0 si _ r2 ActionID.CONSTANT e t _ "Hi" rfl rfl rfl
    hq1 hq0 (by rw [hpool]; exact hr2) hps hpl rfl hsi (by rw [hpool]; exact ht) hhi]
  simp only []
  rw [loop_step _ p _ _ 8 _ _ (hd _ rfl) (by rw [hlen]; decide)]
  rw [step_RETURN _ _ 8 _ (by simp)]
  simp only []
  rw [loop_done _ p _ _ 9 _ _ (hd _ rfl) (by rw [hlen]; decide)]
  refine ⟨_, rfl, ?_, rfl, rfl⟩
  simp [String.append_assoc]

/-- C1 (amended), at the class file `hiFile`: the hypotheses hold and `run` writes the three
lines. -/
theorem hello_output_witness :
    HasCode (started hiFile).klass "main" ⟨0, 0⟩
        ([0, 2, 0, 1, 0, 0, 0, 9, 0xB2, 0, 1, 0x12, 7, 0xB6, 0, 9, 0xB1] ++ [0, 0, 0, 0]) ∧
      ∃ m1, JavaExecutor.run 1 "main" (started hiFile) = Res.ok 9 m1 ∧
        m1.cout = "" ++ ("[" ++ "main" ++ "] Length of LVA: " ++ Nat.repr (256 * 0 + 1) ++ "\n"
                    ++ "Hi\n" ++ "Return!\n") ∧
        m1.action_stack =
          Action.StaticAction ActionID.STATIC "java/lang/System" "out" :: [] ∧
        m1.steps = 0 + 4 :=
  ⟨by decide!,
   hello_output 0 "main" (started hiFile) ⟨0, 0⟩ 0 2 0 1 0 1 7 0 9 8 [0, 0, 0, 0]
    ⟨⟨9, Payload.Reference 2 3⟩, ⟨7, Payload.Class 4⟩, ⟨1, Payload.Utf8 16 "java/lang/System"⟩,
     ⟨12, Payload.NameAndType 5 6⟩, ⟨1, Payload.Utf8 3 "out"⟩,
     ⟨1, Payload.Utf8 21 "Ljava/io/PrintStream;"⟩⟩
    ⟨⟨10, Payload.Reference 10 11⟩, ⟨7, Payload.Class 12⟩,
     ⟨1, Payload.Utf8 19 "java/io/PrintStream"⟩, ⟨12, Payload.NameAndType 13 14⟩,
     ⟨1, Payload.Utf8 7 "println"⟩, ⟨1, Payload.Utf8 21 "(Ljava/lang/String;)V"⟩⟩
    "java/lang/System" "out" ⟨8, Payload.String 8⟩ ⟨1, Payload.Utf8 2 "Hi"⟩
    (by decide!) (by decide) (by decide) (by decide) (by decide) (by decide) (by decide)
    (by decide!) (by decide) (by decide) (by decide!) (by decide) (by decide!) (by decide)
    (by decide!) (by decide) (by decide)⟩

/-- C2 (as stated, refuted): the method `main` of `overrunFile` has `code_length = 1` and the
code byte SIPUSH; `run` returns without a fault with the cursor at 3, after one call of `step`
that took the cursor from 0 to 3, and the code length it compares with is 1 throughout. -/
theorem overrun_halts_past_code_length :
    (derefCodeAttribute ⟨0, 0⟩
        (JavaExecutor.get_code_attribute (some 0) "main" (started overrunFile)).state).value?
        = some { max_stack := 1, max_locals := 1, code_length := 1 }
      ∧ (JavaExecutor.run 1 "main" (started overrunFile)).value? = some 3
      ∧ (JavaExecutor.run 1 "main" (started overrunFile)).state.steps = 1
      ∧ (derefCodeAttribute ⟨0, 0⟩
          (JavaExecutor.run 1 "main" (started overrunFile)).state).value?
        = some { max_stack := 1, max_locals := 1, code_length := 1 } := by
  decide!

/-- C2 (amended): let the method `name` have a Code attribute whose `code_length` bytes decode
big-endian to `N`, and let the run make no nested call (the depth bound is 1, or no byte after
the header of the attribute is INVOKESTATIC).  If `run` returns, the cursor `c` it ends with
satisfies `N ≤ c ≤ N + 2`; and a call of `step` that starts below `N` and returns leaves the
cursor at most at `N + 2`. -/
theorem run_cursor_bounds (d : Nat) (name : Text) (m : Machine) (p : AttrPtr)
    (s1 s0 l1 l0 n3 n2 n1 n0 : Nat) (code : List Nat) (c : Nat) (m1 : Machine)
    (hcode : HasCode m.klass name p ([s1, s0, l1, l0, n3, n2, n1, n0] ++ code))
    (h3 : n3 < 256) (h2 : n2 < 256) (h1 : n1 < 256) (h0 : n0 < 256)
    (hno : d = 0 ∨ ∀ b ∈ code, b ≠ INVOKESTATIC)
    (h : JavaExecutor.run (d + 1) name m = Res.ok c m1) :
    (16777216 * n3 + 65536 * n2 + 256 * n1 + n0 ≤ c ∧
      c ≤ 16777216 * n3 + 65536 * n2 + 256 * n1 + n0 + 2) ∧
    ∀ (cursor : Nat) (s : Machine) (c1 : Nat) (s1 : Machine),
      cursor < 16777216 * n3 + 65536 * n2 + 256 * n1 + n0 →
      JavaExecutor.step (JavaExecutor.run d) code cursor s = Res.ok c1 s1 →
      c1 ≤ 16777216 * n3 + 65536 * n2 + 256 * n1 + n0 + 2 := by
  have hsafe : ∀ (cursor : Nat) (s : Machine) (c1 : Nat) (s1 : Machine),
      JavaExecutor.step (JavaExecutor.run d) code cursor s = Res.ok c1 s1 →
      s1.klass = s.klass ∧ c1 ≤ cursor + 3 := by
    rcases hno with hd | hns
    · subst hd
      exact step_safe_of_depth_zero code
    · exact step_safe_of_no_invokestatic _ code hns
  refine ⟨?_, ?_⟩
  · let info := [s1, s0, l1, l0, n3, n2, n1, n0] ++ code
    let c0 : CodeAttribute := ⟨ofBytes [s1, s0], ofBytes [l1, l0], ofBytes [n3, n2, n1, n0]⟩
    have hload : CodeAttribute.load info = some c0 := by
      simp [CodeAttribute.load, info, c0]
    rw [run_enter d name m p info c0 hcode hload] at h
    have hent := hasCode_entered _ _ _ _ (c0.swapFields.store info) hcode
    have hlen : c0.swapFields.code_length = 16777216 * n3 + 65536 * n2 + 256 * n1 + n0 :=
      swap4_bytes n3 n2 n1 n0 h3 h2 h1 h0
    have hdrop : info.drop 8 = code := rfl
    rw [hdrop] at h
    have hd : ∀ m2 : Machine, m2.klass = m.klass.setInfoAt p (c0.swapFields.store info) →
        derefCodeAttribute p m2 = Res.ok c0.swapFields m2 := by
      intro m2 hk
      exact derefCodeAttribute_eq m2 p _ _ (by rw [hk]; exact hent.2.2)
        (load_swapFields_store c0 info)
    rcases loop_bounds _ p code hsafe c0.swapFields loopBound 0 _ c m1 (hd _ rfl) h
      with ⟨g1, g2, _⟩
    rw [hlen] at g1 g2
    refine ⟨g1, ?_⟩
    rcases g2 with g2 | g2
    · omega
    · exact g2
  · intro cursor s c1 s1 hlt hs
    have := (hsafe cursor s c1 s1 hs).2
    omega

/-- C2 (amended), at the class file `overrunFile`: `run` returns with the cursor at 3, and
`1 ≤ 3 ≤ 1 + 2`. -/
theorem run_cursor_bounds_witness :
    (16777216 * 0 + 65536 * 0 + 256 * 0 + 1 ≤ 3 ∧ 3 ≤ 16777216 * 0 + 65536 * 0 + 256 * 0 + 1 + 2) ∧
    ∀ (cursor : Nat) (s : Machine) (c1 : Nat) (s1 : Machine),
      cursor < 16777216 * 0 + 65536 * 0 + 256 * 0 + 1 →
      JavaExecutor.step (JavaExecutor.run 0) [0x11, 0, 0, 0, 0] cursor s = Res.ok c1 s1 →
      c1 ≤ 16777216 * 0 + 65536 * 0 + 256 * 0 + 1 + 2 :=
  run_cursor_bounds 0 "main" (started overrunFile) ⟨0, 0⟩ 0 1 0 1 0 0 0 1 [0x11, 0, 0, 0, 0] 3
    (JavaExecutor.run 1 "main" (started overrunFile)).state
    (by decide!) (by decide) (by decide) (by decide) (by decide) (Or.inl rfl) (by decide!)

/-- C3: every call of `step` that returns has decoded one of the six opcodes GETSTATIC, LDC,
SIPUSH, INVOKEVIRTUAL, INVOKESTATIC, RETURN at the cursor `c` and leaves the cursor at `c` plus
one plus the operand width of that opcode: `c + 3` for GETSTATIC, INVOKEVIRTUAL, INVOKESTATIC
and SIPUSH, `c + 2` for LDC, `c + 1` for RETURN. -/
theorem step_advances_by_operand_width (run : Text → M Machine Nat) (codeptr : List Nat)
    (cursor : Nat) (m : Machine) (c1 : Nat) (m1 : Machine)
    (h : JavaExecutor.step run codeptr cursor m = Res.ok c1 m1) :
    ∃ op, codeptr[cursor]? = some op ∧ c1 = cursor + 1 + operandWidth op ∧
      ((op = GETSTATIC ∨ op = INVOKEVIRTUAL ∨ op = INVOKESTATIC ∨ op = SIPUSH) ∧ c1 = cursor + 3
        ∨ op = LDC ∧ c1 = cursor + 2
        ∨ op = RETURN ∧ c1 = cursor + 1) := by
  rcases step_post run codeptr cursor m c1 m1 h with ⟨op, hop, hcase⟩
  refine ⟨op, hop, ?_⟩
  rcases hcase with ⟨h1 | h1 | h1, h2, _⟩ | ⟨h1, h2, _⟩ | ⟨h1, h2, _⟩ | ⟨h1, h2, _⟩ <;>
    subst h1 <;> subst h2 <;>
    simp [operandWidth, GETSTATIC, LDC, SIPUSH, INVOKEVIRTUAL, INVOKESTATIC, RETURN]

/-- C3, at the code SIPUSH 1 2 from cursor 0: the call returns with the cursor at 3. -/
theorem step_advances_by_operand_width_witness :
    ∃ op, [0x11, 1, 2][0]? = some op ∧ 3 = 0 + 1 + operandWidth op ∧
      ((op = GETSTATIC ∨ op = INVOKEVIRTUAL ∨ op = INVOKESTATIC ∨ op = SIPUSH) ∧ 3 = 0 + 3
        ∨ op = LDC ∧ 3 = 0 + 2
        ∨ op = RETURN ∧ 3 = 0 + 1) :=
  step_advances_by_operand_width (JavaExecutor.run 0) [0x11, 1, 2] 0 (started overrunFile) 3
    (JavaExecutor.step (JavaExecutor.run 0) [0x11, 1, 2] 0 (started overrunFile)).state
    (by decide!)

/-- C4 (the code at the failing input): the pool constructed from a header with
`constantPoolCount = 3` and the entries Utf8 "a", Utf8 "b" answers
`get_name_by_index(1)` with "b", the text of the second entry, while `entries[1 - 1]`, which
`get_method` compares with the method name for a `name_index` of 1, holds "a". -/
theorem get_name_by_index_is_zero_based :
    (ConstantPool.new { magic := 0xCAFEBABE, minor := 0, major := 52, constantPoolCount := 3 }
        (atStart twoNamesPool)).value? = some twoNames
      ∧ twoNames.get_name_by_index 1 = some "b"
      ∧ (entryAt (some twoNames) ((1 : Int) - 1)).bind ConstantPoolEntry.Utf8_bytes = some "a"
      ∧ twoNamesKlass.get_method "a" = some (some 0)
      ∧ twoNamesKlass.get_method "b" = some none := by
  decide!

/-- C5 (as stated, refuted): on the pool with the entries Utf8 "a", Utf8 "b"
(`constantPoolCount = 3`), `get_name_by_index(0)` returns the text "a" of an entry; and LDC
with the index operand 0, or 3, stops in an access outside the array with nothing written to
standard output or standard error, not in an error raised by the program. -/
theorem index_zero_returns_an_entry :
    twoNames.get_name_by_index 0 = some "a"
      ∧ JavaExecutor.step (JavaExecutor.run 0) [0x12, 0] 0 twoNamesMachine
          = Res.fail Fault.undefined { twoNamesMachine with steps := 1 }
      ∧ JavaExecutor.step (JavaExecutor.run 0) [0x12, 3] 0 twoNamesMachine
          = Res.fail Fault.undefined { twoNamesMachine with steps := 1 } := by
  decide!

/-- C5 (amended): no range check is made when a constant-pool index is resolved.  As the
operand of LDC an index `idx` with `1 ≤ idx ≤ count - 1` (the pool holds `count - 1` entries)
resolves to `entries[idx - 1]`, which is pushed; with `idx = 0` or `idx ≥ count` the step stops
in an access outside the array, with no output and no exit.  A GETSTATIC, INVOKEVIRTUAL or
INVOKESTATIC whose index operand is 0 or `≥ count` stops in the same way. -/
theorem pool_index_unchecked (pool : ConstantPool) (run : Text → M Machine Nat)
    (code : List Nat) (cursor : Nat) (m : Machine) (hpool : m.klass.const_pool = some pool) :
    (∀ idx, code[cursor]? = some LDC → code[cursor + 1]? = some idx →
      (1 ≤ idx ∧ idx ≤ pool.entries.length →
        ∃ e, pool.entries[idx - 1]? = some e ∧
          JavaExecutor.step run code cursor m =
            Res.ok (cursor + 2)
              { m with action_stack := Action.ConstantAction ActionID.CONSTANT e :: m.action_stack
                       steps := m.steps + 1 }) ∧
      (idx = 0 ∨ pool.entries.length < idx →
        JavaExecutor.step run code cursor m =
          Res.fail Fault.undefined { m with steps := m.steps + 1 })) ∧
    (∀ op b1 b2, op = GETSTATIC ∨ op = INVOKEVIRTUAL ∨ op = INVOKESTATIC →
      code[cursor]? = some op → code[cursor + 1]? = some b1 → code[cursor + 1 + 1]? = some b2 →
      b1 < 256 → b2 < 256 →
      256 * b1 + b2 = 0 ∨ pool.entries.length < 256 * b1 + b2 →
      (JavaExecutor.step run code cursor m).fault? = some Fault.undefined) := by
  have hsub : ∀ idx : Nat, entryAt (some pool) ((idx : Int) - 1)
      = if idx = 0 then none else pool.entries[idx - 1]? := by
    intro idx
    cases idx with
    | zero => rfl
    | succ n =>
      have e : ((n + 1 : Nat) : Int) - 1 = Int.ofNat n := by
        simp
      simp only [entryAt, e, subscript]
      simp
  have hout : ∀ idx : Nat, idx = 0 ∨ pool.entries.length < idx →
      entryAt (some pool) ((idx : Int) - 1) = none := by
    intro idx h
    rw [hsub]
    rcases h with h | h
    · simp [h]
    · have : idx ≠ 0 := by omega
      simp only [this, if_false]
      exact List.getElem?_eq_none (by omega)
  refine ⟨?_, ?_⟩
  · intro idx hop hidx
    refine ⟨?_, ?_⟩
    · intro ⟨h1, h2⟩
      have hlt : idx - 1 < pool.entries.length := by omega
      refine ⟨pool.entries[idx - 1], List.getElem?_eq_getElem hlt, ?_⟩
      apply step_LDC run code cursor idx m _ hop hidx
      rw [hpool, hsub]
      have : idx ≠ 0 := by omega
      simp only [this, if_false]
      exact List.getElem?_eq_getElem hlt
    · intro h
      apply step_LDC_undefined run code cursor idx m hop hidx
      rw [hpool]
      exact hout idx h
  · intro op b1 b2 hop_cases hop h1 h2 hb1 hb2 hrange
    have hres : resolveAt m.klass.const_pool (256 * b1 + b2) = none := by
      unfold resolveAt
      rw [hpool, hout _ hrange]
      rfl
    rcases hop_cases with h | h | h <;> subst h <;>
      simp [JavaExecutor.step, bind_apply, countStep, hop, codeWord_eq _ _ _ _ h1 h2,
        swap2_bytes b1 b2 hb1 hb2, hres, orUndefined, pure_apply, resolveReference,
        GETSTATIC, LDC, SIPUSH, ILOAD_1, INVOKEVIRTUAL, INVOKESTATIC, RETURN, print, Res.fault?]

/-- C5 (amended), at the pool `twoNames`: LDC 1 pushes the first entry, LDC 0 stops in an
access outside the array. -/
theorem pool_index_unchecked_witness :
    (∃ e, twoNames.entries[1 - 1]? = some e ∧
      JavaExecutor.step (JavaExecutor.run 0) [0x12, 1] 0 twoNamesMachine =
        Res.ok (0 + 2)
          { twoNamesMachine with
              action_stack := Action.ConstantAction ActionID.CONSTANT e :: twoNamesMachine.action_stack
              steps := twoNamesMachine.steps + 1 }) ∧
    JavaExecutor.step (JavaExecutor.run 0) [0x12, 0] 0 twoNamesMachine =
      Res.fail Fault.undefined { twoNamesMachine with steps := twoNamesMachine.steps + 1 } ∧
    (JavaExecutor.step (JavaExecutor.run 0) [0xB2, 0, 3] 0 twoNamesMachine).fault?
      = some Fault.undefined :=
  ⟨((pool_index_unchecked twoNames (JavaExecutor.run 0) [0x12, 1] 0 twoNamesMachine rfl).1
      1 rfl rfl).1 (by decide),
   ((pool_index_unchecked twoNames (JavaExecutor.run 0) [0x12, 0] 0 twoNamesMachine rfl).1
      0 rfl rfl).2 (Or.inl rfl),
   (pool_index_unchecked twoNames (JavaExecutor.run 0) [0xB2, 0, 3] 0 twoNamesMachine rfl).2
      0xB2 0 3 (Or.inl rfl) rfl rfl rfl (by decide) (by decide) (Or.inr (by decide))⟩

/-- C6: `swapEndianness` is its own inverse on every 16-bit, 32-bit and 64-bit unsigned
value. -/
theorem swapEndianness_self_inverse (x : Nat) :
    (x < 2 ^ 16 → swapEndianness 2 (swapEndianness 2 x) = x) ∧
    (x < 2 ^ 32 → swapEndianness 4 (swapEndianness 4 x) = x) ∧
    (x < 2 ^ 64 → swapEndianness 8 (swapEndianness 8 x) = x) :=
  ⟨fun h => swapEndianness_involutive 2 x (by omega),
   fun h => swapEndianness_involutive 4 x (by omega),
   fun h => swapEndianness_involutive 8 x (by omega)⟩

/-- C6, at the value 0xCAFE: swapping twice gives 0xCAFE back, at each of the three widths. -/
theorem swapEndianness_self_inverse_witness :
    swapEndianness 2 (swapEndianness 2 0xCAFE) = 0xCAFE ∧
    swapEndianness 4 (swapEndianness 4 0xCAFE) = 0xCAFE ∧
    swapEndianness 8 (swapEndianness 8 0xCAFE) = 0xCAFE :=
  ⟨(swapEndianness_self_inverse 0xCAFE).1 (by decide),
   (swapEndianness_self_inverse 0xCAFE).2.1 (by decide),
   (swapEndianness_self_inverse 0xCAFE).2.2 (by decide)⟩

/-- C7: on every stream that holds at least ten bytes and whose first four bytes, decoded
big-endian, are not 0xCAFEBABE, the constructor of `JavaClassFile` returns with `ok` false and
no constant pool, having extracted exactly the ten header bytes: what follows them is still in
the stream. -/
theorem bad_magic_rejected_after_header (filename : Text)
    (b0 b1 b2 b3 b4 b5 b6 b7 b8 b9 : Nat) (rest : List Nat) (cout cerr : Text)
    (h0 : b0 < 256) (h1 : b1 < 256) (h2 : b2 < 256) (h3 : b3 < 256)
    (hmagic : 16777216 * b0 + 65536 * b1 + 256 * b2 + b3 ≠ 0xCAFEBABE) :
    ∃ k r, JavaClassFile.new filename
        { stream := { rest := b0 :: b1 :: b2 :: b3 :: b4 :: b5 :: b6 :: b7 :: b8 :: b9 :: rest
                      consumed := 0 }
          cout := cout, cerr := cerr } = Res.ok k r ∧
      k.ok = false ∧ k.const_pool = none ∧ k.methods_count = 0 ∧
      r.stream.consumed = 10 ∧ r.stream.rest = rest ∧
      r.cout = cout ++ (filename ++ ": not a Java Class file!" ++ "\n") ∧ r.cerr = cerr :=
  ⟨_, _, new_bad_magic filename b0 b1 b2 b3 b4 b5 b6 b7 b8 b9 rest 0 cout cerr h0 h1 h2 h3 hmagic,
    rfl, rfl, rfl, rfl, rfl, rfl, rfl⟩

/-- C7, at the file `notClassFile`, whose magic is 0xCAFEBABF: the six bytes after the header
are left in the stream. -/
theorem bad_magic_rejected_after_header_witness :
    ∃ k r, JavaClassFile.new "x.class" (atStart notClassFile) = Res.ok k r ∧
      k.ok = false ∧ k.const_pool = none ∧ k.methods_count = 0 ∧
      r.stream.consumed = 10 ∧ r.stream.rest = [1, 0, 1, 97, 0, 33] ∧
      r.cout = "" ++ ("x.class" ++ ": not a Java Class file!" ++ "\n") ∧ r.cerr = "" :=
  bad_magic_rejected_after_header "x.class" 202 254 186 191 0 0 0 52 0 2 [1, 0, 1, 97, 0, 33]
    "" "" (by decide) (by decide) (by decide) (by decide) (by decide)

/-- C8: for every input file that holds at least ten bytes and whose magic is not 0xCAFEBABE,
`main` ends in `exit(1)`, called by `get_code_attribute` for the method that was not found,
and `step` has not been called. -/
theorem bad_magic_runs_no_bytecode (d : Nat) (prog filename : Text) (more : List Text)
    (files : Text → Option (List Nat))
    (b0 b1 b2 b3 b4 b5 b6 b7 b8 b9 : Nat) (rest : List Nat)
    (hfile : files filename
      = some (b0 :: b1 :: b2 :: b3 :: b4 :: b5 :: b6 :: b7 :: b8 :: b9 :: rest))
    (h0 : b0 < 256) (h1 : b1 < 256) (h2 : b2 < 256) (h3 : b3 < 256)
    (hmagic : 16777216 * b0 + 65536 * b1 + 256 * b2 + b3 ≠ 0xCAFEBABE) :
    main (d + 1) (prog :: filename :: more) files =
      Res.fail (Fault.exit 1)
        { cout := "" ++ (filename ++ ": not a Java Class file!" ++ "\n")
                    ++ ("Exception: Trying to get Code Attribute from nullptr method!" ++ "\n")
                    ++ ("           Method name: " ++ "main" ++ "\n")
          cerr := ""
          steps := 0 } := by
  simp only [main, hfile,
    new_bad_magic filename b0 b1 b2 b3 b4 b5 b6 b7 b8 b9 rest 0 "" "" h0 h1 h2 h3 hmagic]
  simp [JavaExecutor.run, bind_apply, JavaExecutor.get_method, JavaClassFile.get_method,
    JavaClassFile.initial, JavaClassFile.get_method_from, JavaExecutor.get_code_attribute, print,
    raise_apply]

/-- C8, at the file `notClassFile`: `main` ends in `exit(1)` with no call of `step`. -/
theorem bad_magic_runs_no_bytecode_witness :
    main 1 ["zeravm", "x.class"] (fun _ => some notClassFile) =
      Res.fail (Fault.exit 1)
        { cout := "" ++ ("x.class" ++ ": not a Java Class file!" ++ "\n")
                    ++ ("Exception: Trying to get Code Attribute from nullptr method!" ++ "\n")
                    ++ ("           Method name: " ++ "main" ++ "\n")
          cerr := ""
          steps := 0 } :=
  bad_magic_runs_no_bytecode 0 "zeravm" "x.class" [] (fun _ => some notClassFile)
    202 254 186 191 0 0 0 52 0 2 [1, 0, 1, 97, 0, 33] rfl
    (by decide) (by decide) (by decide) (by decide) (by decide)

/-- C9: when the byte at the cursor is none of 0xB2, 0x12, 0x11, 0x1b, 0xB6, 0xB8, 0xB1, the
call of `step` writes the line "Unknown instruction: 0x" followed by the opcode in hexadecimal
and calls `exit(1)`; the loop of `run` ends in that same fault and state, so that no further
call of `step` is made and nothing more is written. -/
theorem unknown_opcode_aborts_run (run : Text → M Machine Nat) (codeptr : List Nat)
    (cursor op : Nat) (m : Machine) (hop : codeptr[cursor]? = some op)
    (h1 : op ≠ 0xB2) (h2 : op ≠ 0x12) (h3 : op ≠ 0x11) (h4 : op ≠ 0x1b) (h5 : op ≠ 0xB6)
    (h6 : op ≠ 0xB8) (h7 : op ≠ 0xB1) :
    JavaExecutor.step run codeptr cursor m =
      Res.fail (Fault.exit 1)
        { m with cout := m.cout ++ ("Unknown instruction: 0x" ++ String.mk (Nat.toDigits 16 op)
                                      ++ "\n")
                 steps := m.steps + 1 } ∧
    ∀ (p : AttrPtr) (c : CodeAttribute) (n : Nat),
      derefCodeAttribute p m = Res.ok c m → cursor < c.code_length →
      JavaExecutor.loop run p codeptr (n + 1) cursor m =
        Res.fail (Fault.exit 1)
          { m with cout := m.cout ++ ("Unknown instruction: 0x" ++ String.mk (Nat.toDigits 16 op)
                                        ++ "\n")
                   steps := m.steps + 1 } := by
  have hs := step_unknown run codeptr cursor op m hop h1 h2 h3 h4 h5 h6 h7
  refine ⟨hs, ?_⟩
  intro p c n hd hlt
  rw [loop_step run p codeptr n cursor m c hd hlt, hs]

/-- C9, at the code RETURN; 0xFF; RETURN of `unknownOpFile`: the step at cursor 1 ends in
`exit(1)` after the line "Unknown instruction: 0xff", and `main` ends in that fault after two
calls of `step`, the second RETURN having written nothing. -/
theorem unknown_opcode_aborts_run_witness :
    JavaExecutor.step (JavaExecutor.run 0) [0xB1, 0xFF, 0xB1] 1 (started unknownOpFile) =
        Res.fail (Fault.exit 1)
          { started unknownOpFile with
              cout := (started unknownOpFile).cout
                        ++ ("Unknown instruction: 0x" ++ String.mk (Nat.toDigits 16 0xFF) ++ "\n")
              steps := (started unknownOpFile).steps + 1 } ∧
      main 1 ["zeravm", "A.class"] (fun _ => some unknownOpFile) =
        Res.fail (Fault.exit 1)
          { cout := "[main] Length of LVA: 1\nReturn!\nUnknown instruction: 0xff\n"
            cerr := "", steps := 2 } :=
  ⟨(unknown_opcode_aborts_run (JavaExecutor.run 0) [0xB1, 0xFF, 0xB1] 1 0xFF
      (started unknownOpFile) rfl (by decide) (by decide) (by decide) (by decide) (by decide)
      (by decide) (by decide)).1,
   by decide!⟩

/-- C10: for all operand bytes `b1`, `b2` below 256, the step on SIPUSH `b1` `b2` pushes one
action, a `ValueAction` whose integer is `(b1 << 8) | b2 = 256 * b1 + b2`, a value of at most
65535; it leaves the rest of the stack as it was and the cursor three bytes further.  With the
operand bytes 0x01, 0x02 the value pushed is 258. -/
theorem sipush_pushes_big_endian_value (run : Text → M Machine Nat) (codeptr : List Nat)
    (cursor b1 b2 : Nat) (m : Machine) (hop : codeptr[cursor]? = some SIPUSH)
    (h1 : codeptr[cursor + 1]? = some b1) (h2 : codeptr[cursor + 1 + 1]? = some b2)
    (hb1 : b1 < 256) (hb2 : b2 < 256) :
    (∃ m1, JavaExecutor.step run codeptr cursor m = Res.ok (cursor + 3) m1 ∧
      m1.action_stack
        = Action.ValueAction ActionID.CONSTANT (Int.ofNat (256 * b1 + b2)) :: m.action_stack) ∧
    (b1 <<< 8) ||| b2 = 256 * b1 + b2 ∧ 256 * b1 + b2 ≤ 65535 ∧
    (JavaExecutor.step run [0x11, 0x01, 0x02] 0 m).state.action_stack
      = Action.ValueAction ActionID.CONSTANT 258 :: m.action_stack := by
  have hv : (b1 <<< 8) ||| b2 = 256 * b1 + b2 := by
    rw [Nat.shiftLeft_eq, Nat.mul_comm b1 (2 ^ 8)]
    exact (Nat.mul_add_lt_is_or (by omega) b1).symm
  refine ⟨⟨_, step_SIPUSH run codeptr cursor b1 b2 m hop h1 h2, ?_⟩, hv, by omega, ?_⟩
  · simp only [hv]
  · rw [step_SIPUSH run [0x11, 0x01, 0x02] 0 0x01 0x02 m rfl rfl rfl]
    rfl

/-- C10, at the operand bytes 0x01, 0x02: the value pushed is 258. -/
theorem sipush_pushes_big_endian_value_witness :
    (∃ m1, JavaExecutor.step (JavaExecutor.run 0) [0x11, 0x01, 0x02] 0 (started overrunFile)
        = Res.ok (0 + 3) m1 ∧
      m1.action_stack
        = Action.ValueAction ActionID.CONSTANT (Int.ofNat (256 * 0x01 + 0x02))
            :: (started overrunFile).action_stack) ∧
    (0x01 <<< 8) ||| 0x02 = 256 * 0x01 + 0x02 ∧ 256 * 0x01 + 0x02 ≤ 65535 ∧
    (JavaExecutor.step (JavaExecutor.run 0) [0x11, 0x01, 0x02] 0 (started overrunFile)).state.action_stack
      = Action.ValueAction ActionID.CONSTANT 258 :: (started overrunFile).action_stack :=
  sipush_pushes_big_endian_value (JavaExecutor.run 0) [0x11, 0x01, 0x02] 0 0x01 0x02
    (started overrunFile) rfl rfl rfl (by decide) (by decide)

/-- C11 (the code at the failing input): the method `f` of `twiceFile` has the wire header
00 01 00 01 00 00 00 01 (`code_length` 1).  One `run` of `f` halts with the cursor at 1 and
leaves the header bytes of the attribute buffer reversed field by field; a second `run` of `f`
swaps them again, prints `max_locals` as 256, bounds its loop by `code_length = 16777216`,
decodes the byte after the code as an opcode and calls `exit(1)`.  `main`, which calls `f`
twice, ends in that `exit(1)`. -/
theorem second_run_sees_reswapped_header :
    (started twiceFile).klass.infoAt ⟨1, 0⟩ = some [0, 1, 0, 1, 0, 0, 0, 1, 177, 0, 0, 0, 0]
      ∧ (JavaExecutor.run 1 "f" (started twiceFile)).value? = some 1
      ∧ (JavaExecutor.run 1 "f" (started twiceFile)).state.klass.infoAt ⟨1, 0⟩
          = some [1, 0, 1, 0, 1, 0, 0, 0, 177, 0, 0, 0, 0]
      ∧ (derefCodeAttribute ⟨1, 0⟩
          (JavaExecutor.get_code_attribute (some 1) "f"
            (JavaExecutor.run 1 "f" (started twiceFile)).state).state).value?
          = some { max_stack := 256, max_locals := 256, code_length := 16777216 }
      ∧ (JavaExecutor.run 1 "f" (JavaExecutor.run 1 "f" (started twiceFile)).state).fault?
          = some (Fault.exit 1)
      ∧ (JavaExecutor.run 1 "f" (JavaExecutor.run 1 "f" (started twiceFile)).state).state.cout
          = "[f] Length of LVA: 1\nReturn!\n[f] Length of LVA: 256\nReturn!\nUnknown instruction: 0x0\n"
      ∧ (main 2 ["zeravm", "A.class"] (fun _ => some twiceFile)).fault? = some (Fault.exit 1)
      ∧ (main 2 ["zeravm", "A.class"] (fun _ => some twiceFile)).state.steps = 5 := by
  decide!

/-- C12 (as stated, refuted): in `calleePrintsFile` the method `main` pushes the constant
"Hi" and calls `f`, whose code is a `println`.  The callee finds the caller's constant on the
stack, prints "Hi" and pops it: the run of `main` returns with the cursor at 6 and an empty
stack, although the caller's stack held one action immediately before the call. -/
theorem callee_uses_and_pops_caller_stack :
    (JavaExecutor.step (JavaExecutor.run 1) [0x12, 7] 0 (started calleePrintsFile)).state.action_stack
        = [Action.ConstantAction ActionID.CONSTANT ⟨8, Payload.String 8⟩]
      ∧ (JavaExecutor.run 2 "main" (started calleePrintsFile)).value? = some 6
      ∧ (JavaExecutor.run 2 "main" (started calleePrintsFile)).state.action_stack = []
      ∧ (JavaExecutor.run 2 "main" (started calleePrintsFile)).state.cout
          = "[main] Length of LVA: 1\nInvoke static!\n"
            ++ "Class: <ConstantPoolEntry = TAG: 10; Method reference>\n"
            ++ "Class index: <ConstantPoolEntry = TAG: 7; Class>\n"
            ++ "Class name: <ConstantPoolEntry = TAG: 1; Utf8; Value = \"A\">\n"
            ++ "Name and type: <ConstantPoolEntry = TAG: 12; Name and type>\n"
            ++ "|- Name: <ConstantPoolEntry = TAG: 1; Utf8; Value = \"f\">\n"
            ++ "|- Descriptor: <ConstantPoolEntry = TAG: 1; Utf8; Value = \"()V\">\n"
            ++ "[f] Length of LVA: 1\nHi\nReturn!\nReturn!\n" := by
  decide!

/-- C12 (amended): the cursor is local to a `run` invocation, the action stack is not.  When
`step` executes INVOKESTATIC, the callee's `run` starts from a state `m0` whose action stack
and class file are the caller's; if it returns, the caller's step returns with the cursor three
bytes further, whatever the callee's cursor was, in the state the callee ended with, its action
stack included; if it faults, the caller's step ends in that fault.  The callee's loop starts
with the cursor at 0. -/
theorem invokestatic_shares_stack (run : Text → M Machine Nat) (codeptr : List Nat)
    (cursor b1 b2 : Nat) (m : Machine) (r : Resolved) (t1 t2 t3 t4 t5 t6 name : Text)
    (hop : codeptr[cursor]? = some INVOKESTATIC)
    (h1 : codeptr[cursor + 1]? = some b1) (h2 : codeptr[cursor + 1 + 1]? = some b2)
    (hb1 : b1 < 256) (hb2 : b2 < 256)
    (hr : resolveAt m.klass.const_pool (256 * b1 + b2) = some r)
    (ht1 : r.entry.show = some t1) (ht2 : r.class_index.show = some t2)
    (ht3 : r.classname_index.show = some t3) (ht4 : r.name_type_index.show = some t4)
    (ht5 : r.name.show = some t5) (ht6 : r.descriptor.show = some t6)
    (hname : r.name.Utf8_bytes = some name) :
    ∃ m0 : Machine, m0.action_stack = m.action_stack ∧ m0.klass = m.klass ∧
      (∀ c s, run name m0 = Res.ok c s →
        JavaExecutor.step run codeptr cursor m = Res.ok (cursor + 3) s) ∧
      (∀ e s, run name m0 = Res.fail e s →
        JavaExecutor.step run codeptr cursor m = Res.fail e s) ∧
      (∀ d p info c0, HasCode m0.klass name p info → CodeAttribute.load info = some c0 →
        ∃ m1 : Machine, m1.action_stack = m.action_stack ∧
          JavaExecutor.run (d + 1) name m0
            = JavaExecutor.loop (JavaExecutor.run d) p (info.drop 8) loopBound 0 m1) := by
  have hs := step_INVOKESTATIC run codeptr cursor b1 b2 m r t1 t2 t3 t4 t5 t6 name hop h1 h2
    hb1 hb2 hr ht1 ht2 ht3 ht4 ht5 ht6 hname
  let m0 : Machine :=
    { m with cout := m.cout ++ ("Invoke static!" ++ "\n") ++ ("Class: " ++ t1 ++ "\n")
                     ++ ("Class index: " ++ t2 ++ "\n") ++ ("Class name: " ++ t3 ++ "\n")
                     ++ ("Name and type: " ++ t4 ++ "\n") ++ ("|- Name: " ++ t5 ++ "\n")
                     ++ ("|- Descriptor: " ++ t6 ++ "\n")
             steps := m.steps + 1 }
  refine ⟨m0, rfl, rfl, ?_, ?_, ?_⟩
  · intro c s hrun
    rw [hs, hrun]
  · intro e s hrun
    rw [hs, hrun]
  · intro d p info c0 hcode hload
    exact ⟨{ m0 with klass := m0.klass.setInfoAt p (c0.swapFields.store info)
                     cout := m0.cout ++ ("[" ++ name ++ "] " ++ "Length of LVA: "
                               ++ Nat.repr c0.swapFields.max_locals ++ "\n") },
      rfl, run_enter d name m0 p info c0 hcode hload⟩

/-- C12 (amended), at `calleePrintsFile` when `main` calls `f` with the constant "Hi" on the
stack: the callee starts from a state with that stack. -/
theorem invokestatic_shares_stack_witness :
    ∃ m0 : Machine, m0.action_stack = callerAtCall.action_stack ∧
      m0.klass = callerAtCall.klass ∧
      (∀ c s, JavaExecutor.run 1 "f" m0 = Res.ok c s →
        JavaExecutor.step (JavaExecutor.run 1) [0xB8, 0, 19] 0 callerAtCall = Res.ok (0 + 3) s) ∧
      (∀ e s, JavaExecutor.run 1 "f" m0 = Res.fail e s →
        JavaExecutor.step (JavaExecutor.run 1) [0xB8, 0, 19] 0 callerAtCall = Res.fail e s) ∧
      (∀ d p info c0, HasCode m0.klass "f" p info → CodeAttribute.load info = some c0 →
        ∃ m1 : Machine, m1.action_stack = callerAtCall.action_stack ∧
          JavaExecutor.run (d + 1) "f" m0
            = JavaExecutor.loop (JavaExecutor.run d) p (info.drop 8) loopBound 0 m1) :=
  invokestatic_shares_stack (JavaExecutor.run 1) [0xB8, 0, 19] 0 0 19 callerAtCall
    ⟨⟨10, Payload.Reference 20 22⟩, ⟨7, Payload.Class 21⟩, ⟨1, Payload.Utf8 1 "A"⟩,
     ⟨12, Payload.NameAndType 18 23⟩, ⟨1, Payload.Utf8 1 "f"⟩, ⟨1, Payload.Utf8 3 "()V"⟩⟩
    "<ConstantPoolEntry = TAG: 10; Method reference>"
    "<ConstantPoolEntry = TAG: 7; Class>"
    "<ConstantPoolEntry = TAG: 1; Utf8; Value = \"A\">"
    "<ConstantPoolEntry = TAG: 12; Name and type>"
    "<ConstantPoolEntry = TAG: 1; Utf8; Value = \"f\">"
    "<ConstantPoolEntry = TAG: 1; Utf8; Value = \"()V\">"
    "f" rfl rfl rfl (by decide) (by decide) (by decide!) (by decide!) (by decide!) (by decide!)
    (by decide!) (by decide!) (by decide!) (by decide)

/-- C13 (the code at the failing input): in `printIntFile` the method `main` pushes the
integer 258 with SIPUSH and calls `println`.  The step of INVOKEVIRTUAL casts the top of the
stack to `ConstantAction` without a check and reads `entry.String.string_index` of an action
that has none: an undefined access, not an error of the program.  Nothing is printed and
nothing popped; the same happens with a field reference on top of the stack. -/
theorem println_does_not_check_the_action :
    main 1 ["zeravm", "A.class"] (fun _ => some printIntFile)
        = Res.fail Fault.undefined
            { cout := "[main] Length of LVA: 1\nNumber is: 258\n", cerr := "", steps := 2 }
      ∧ JavaExecutor.step (JavaExecutor.run 0) [0xB6, 0, 9] 0 fieldOnStack
          = Res.fail Fault.undefined { fieldOnStack with steps := 1 } := by
  decide!

/-- C14: when the entries before it have been read and the next tag byte is not one of the
tag constants of the format, `ConstantPoolEntry::read` consumes that byte only, writes the
diagnostic to standard error and calls `exit(1)`; the loop of the pool constructor and the
constructor end in that fault with the stream where the failing read left it, so that no byte
after the tag is consumed and no further entry is read. -/
theorem unknown_tag_fails_fast (k j : Nat) (r0 r1 : Reader) (es : List ConstantPoolEntry)
    (tag : Nat) (rest : List Nat) (header : JavaClassHeader1)
    (hread : readEntries k r0 = Res.ok es r1) (hstream : r1.stream.rest = tag :: rest)
    (htag : tag ∉ formatTags) (hcount : header.constantPoolCount = k + 1 + j + 1) :
    ConstantPoolEntry.read r1 =
      Res.fail (Fault.exit 1)
        { r1 with stream := { rest := rest, consumed := r1.stream.consumed + 1 }
                  cerr := r1.cerr ++ ("Error: Unknown constant pool element with tag: "
                            ++ Nat.repr tag ++ "\n") } ∧
    readEntries (k + 1 + j) r0 =
      Res.fail (Fault.exit 1)
        { r1 with stream := { rest := rest, consumed := r1.stream.consumed + 1 }
                  cerr := r1.cerr ++ ("Error: Unknown constant pool element with tag: "
                            ++ Nat.repr tag ++ "\n") } ∧
    (ConstantPool.new header r0).fault? = some (Fault.exit 1) ∧
    (ConstantPool.new header r0).state.stream
      = { rest := rest, consumed := r1.stream.consumed + 1 } := by
  have hne : tag ≠ 1 ∧ tag ≠ 7 ∧ tag ≠ 8 ∧ tag ≠ 9 ∧ tag ≠ 10 ∧ tag ≠ 12 := by
    simp only [formatTags, List.mem_cons, List.mem_singleton, List.not_mem_nil, or_false,
      not_or] at htag
    exact ⟨htag.1, htag.2.2.2.2.2.1, htag.2.2.2.2.2.2.1, htag.2.2.2.2.2.2.2.1,
      htag.2.2.2.2.2.2.2.2.1, htag.2.2.2.2.2.2.2.2.2.2.1⟩
  have h1 := read_unknown_tag tag rest r1 hstream hne.1 hne.2.1 hne.2.2.1 hne.2.2.2.1
    hne.2.2.2.2.1 hne.2.2.2.2.2
  have h2 := readEntries_fails_at _ _ k j r0 r1 es hread h1
  refine ⟨h1, h2, ?_, ?_⟩
  · simp [ConstantPool.new, hcount, bind_apply, h2, Res.fault?]
  · simp [ConstantPool.new, hcount, bind_apply, h2, Res.state]

/-- C14, at a pool stream with the entry Utf8 "a" followed by the tag byte 99: the read of
the second entry fails, and the two bytes after the tag are left in the stream. -/
theorem unknown_tag_fails_fast_witness :
    ConstantPoolEntry.read
        { stream := { rest := [99, 0, 1], consumed := 4 }, cout := "", cerr := "" } =
      Res.fail (Fault.exit 1)
        { stream := { rest := [0, 1], consumed := 4 + 1 }, cout := ""
          cerr := "" ++ ("Error: Unknown constant pool element with tag: " ++ Nat.repr 99
                    ++ "\n") } ∧
    readEntries (1 + 1 + 1) (atStart [1, 0, 1, 97, 99, 0, 1]) =
      Res.fail (Fault.exit 1)
        { stream := { rest := [0, 1], consumed := 4 + 1 }, cout := ""
          cerr := "" ++ ("Error: Unknown constant pool element with tag: " ++ Nat.repr 99
                    ++ "\n") } ∧
    (ConstantPool.new { magic := 0xCAFEBABE, minor := 0, major := 52, constantPoolCount := 4 }
        (atStart [1, 0, 1, 97, 99, 0, 1])).fault? = some (Fault.exit 1) ∧
    (ConstantPool.new { magic := 0xCAFEBABE, minor := 0, major := 52, constantPoolCount := 4 }
        (atStart [1, 0, 1, 97, 99, 0, 1])).state.stream
      = { rest := [0, 1], consumed := 4 + 1 } :=
  unknown_tag_fails_fast 1 1 (atStart [1, 0, 1, 97, 99, 0, 1])
    { stream := { rest := [99, 0, 1], consumed := 4 }, cout := "", cerr := "" }
    [{ tag := 1, u := Payload.Utf8 1 "a" }] 99 [0, 1]
    { magic := 0xCAFEBABE, minor := 0, major := 52, constantPoolCount := 4 }
    (by decide!) rfl (by decide) rfl

/-- C15 (the code at the failing input): on every stream that starts with the tag byte 11
(InterfaceMethodref), `ConstantPoolEntry::read` consumes the tag byte only, writes "Error:
Unknown constant pool element with tag: 11" to standard error and calls `exit(1)`; with the
tag bytes 9 and 10 and the payload 00 02 00 03 it returns a reference entry with
`class_index` 2 and `name_and_type_index` 3, having consumed 5 bytes. -/
theorem interface_methodref_is_unknown (c1 c2 n1 n2 : Nat) (rest : List Nat) (n : Nat)
    (cout cerr : Text) :
    ConstantPoolEntry.read
        { stream := { rest := 11 :: c1 :: c2 :: n1 :: n2 :: rest, consumed := n }
          cout := cout, cerr := cerr }
        = Res.fail (Fault.exit 1)
            { stream := { rest := c1 :: c2 :: n1 :: n2 :: rest, consumed := n + 1 }
              cout := cout
              cerr := cerr ++ ("Error: Unknown constant pool element with tag: " ++ Nat.repr 11
                                ++ "\n") }
      ∧ ConstantPoolEntry.read (atStart [9, 0, 2, 0, 3, 7])
          = Res.ok { tag := 9, u := Payload.Reference 2 3 }
              { stream := { rest := [7], consumed := 5 }, cout := "", cerr := "" }
      ∧ ConstantPoolEntry.read (atStart [10, 0, 2, 0, 3, 7])
          = Res.ok { tag := 10, u := Payload.Reference 2 3 }
              { stream := { rest := [7], consumed := 5 }, cout := "", cerr := "" } := by
  refine ⟨?_, by decide!, by decide!⟩
  simp [ConstantPoolEntry.read, bind_apply, readObject, readBytes, pure_apply, ofBytes,
    ConstantPoolTypes.Methodref, ConstantPoolTypes.Class, ConstantPoolTypes.NameAndType,
    ConstantPoolTypes.Utf8, ConstantPoolTypes.Fieldref, ConstantPoolTypes.String,
    Reader.printErr, raise_apply]

/-- C16: in a class file where the `name_index` of every method resolves to a Utf8 entry,
`get_method(name)` returns the method at the smallest position whose name equals `name`, and
it returns null if and only if no method has that name. -/
theorem get_method_first_match (k : JavaClassFile) (name : Text)
    (hwf : ∀ l, l < k.methods_count → k.methodName l ≠ none) :
    (∀ i, i < k.methods_count → k.methodName i = some name →
        (∀ l, l < i → k.methodName l ≠ some name) → k.get_method name = some (some i)) ∧
    (∀ i, k.get_method name = some (some i) →
        i < k.methods_count ∧ k.methodName i = some name ∧
        ∀ l, l < i → k.methodName l ≠ some name) ∧
    (k.get_method name = some none ↔
        ∀ l, l < k.methods_count → k.methodName l ≠ some name) := by
  have hspec := get_method_from_spec k name k.methods_count 0
    (fun l _ h2 => Option.ne_none_iff_exists'.mp (hwf l (by omega)))
  unfold JavaClassFile.get_method
  rcases hspec with ⟨j, _, h2, h3, h4, h5⟩ | ⟨h1, h2⟩
  · have hj : j < k.methods_count := by omega
    have hfirst : ∀ l, l < j → k.methodName l ≠ some name := fun l hl => h4 l (Nat.zero_le l) hl
    refine ⟨?_, ?_, ?_⟩
    · intro i hi hname hbefore
      rw [h5]
      have : i = j := by
        rcases Nat.lt_trichotomy i j with hlt | heq | hgt
        · exact absurd hname (hfirst i hlt)
        · exact heq
        · exact absurd h3 (hbefore j hgt)
      rw [this]
    · intro i hi
      rw [h5] at hi
      have : j = i := Option.some.inj (Option.some.inj hi)
      subst this
      exact ⟨hj, h3, hfirst⟩
    · rw [h5]
      constructor
      · intro h
        cases h
      · intro h
        exact absurd h3 (h j hj)
  · have hnone : ∀ l, l < k.methods_count → k.methodName l ≠ some name :=
      fun l hl => h1 l (Nat.zero_le l) (by omega)
    refine ⟨?_, ?_, ?_⟩
    · intro i hi hname _
      exact absurd hname (hnone i hi)
    · intro i hi
      rw [h2] at hi
      cases hi
    · rw [h2]
      exact ⟨fun _ => hnone, fun _ => rfl⟩

/-- C16, at the class file `twiceFile`, whose methods are `main` and `f`: `get_method("f")`
returns the method at position 1, and `get_method("g")` returns null. -/
theorem get_method_first_match_witness :
    (parsed twiceFile).get_method "f" = some (some 1) ∧
    ((parsed twiceFile).get_method "g" = some none ↔
        ∀ l, l < (parsed twiceFile).methods_count → (parsed twiceFile).methodName l ≠ some "g") :=
  ⟨(get_method_first_match (parsed twiceFile) "f" (by decide!)).1 1 (by decide!) (by decide!)
      (by decide!),
   (get_method_first_match (parsed twiceFile) "g" (by decide!)).2.2⟩

/-- C17: on every stream that starts with the tag byte 1, the length bytes `l1 l2` and then
holds `L = 256 * l1 + l2` further bytes, `ConstantPoolEntry::read` returns a Utf8 entry with
length `L` whose text has one character for each of those `L` bytes, in order, and it has
consumed exactly `3 + L` bytes: what follows them is still in the stream. -/
theorem utf8_entry_read (l1 l2 : Nat) (bytes rest : List Nat) (n : Nat) (cout cerr : Text)
    (h1 : l1 < 256) (h2 : l2 < 256) (hlen : bytes.length = 256 * l1 + l2)
    (hbytes : ∀ b ∈ bytes, b < 256) :
    ConstantPoolEntry.read
        { stream := { rest := 1 :: l1 :: l2 :: (bytes ++ rest), consumed := n }
          cout := cout, cerr := cerr } =
      Res.ok { tag := 1, u := Payload.Utf8 (256 * l1 + l2) (String.mk (bytes.map byteChar)) }
        { stream := { rest := rest, consumed := n + (3 + (256 * l1 + l2)) }
          cout := cout, cerr := cerr } ∧
    (String.mk (bytes.map byteChar)).length = 256 * l1 + l2 ∧
    (String.mk (bytes.map byteChar)).data.map Char.toNat = bytes := by
  refine ⟨?_, ?_, byteChars_toNat bytes hbytes⟩
  · have hsw := swap2_bytes l1 l2 h1 h2
    have e1 : ofBytes [1] = 1 := rfl
    have hspec := readUtf8Chars_spec bytes rest none "" (n + 1 + 2) cout cerr
    rw [hlen] at hspec
    simp only [ConstantPoolEntry.read, bind_apply, readObject, readBytes, List.take, List.drop,
      List.length_cons, List.length_nil, pure_apply, e1, ConstantPoolTypes.Methodref,
      ConstantPoolTypes.Class, ConstantPoolTypes.NameAndType, ConstantPoolTypes.Utf8,
      Nat.reduceEqDiff, if_false, if_true, Nat.zero_add, Nat.reduceAdd, hsw, hspec]
    have ec : n + 1 + 2 + (256 * l1 + l2) = n + (3 + (256 * l1 + l2)) := by omega
    rw [ec, List.nil_append]
  · simp [String.length, hlen]

/-- C17, at the stream 01 00 02 48 69 07: the entry read is the Utf8 entry "Hi" and the
byte 07 is left in the stream. -/
theorem utf8_entry_read_witness :
    ConstantPoolEntry.read
        { stream := { rest := 1 :: 0 :: 2 :: ([72, 105] ++ [7]), consumed := 0 }
          cout := "", cerr := "" } =
      Res.ok { tag := 1, u := Payload.Utf8 (256 * 0 + 2) (String.mk ([72, 105].map byteChar)) }
        { stream := { rest := [7], consumed := 0 + (3 + (256 * 0 + 2)) }
          cout := "", cerr := "" } ∧
    (String.mk ([72, 105].map byteChar)).length = 256 * 0 + 2 ∧
    (String.mk ([72, 105].map byteChar)).data.map Char.toNat = [72, 105] :=
  utf8_entry_read 0 2 [72, 105] [7] 0 "" "" (by decide) (by decide) rfl (by decide)

/-- C18: on every stream that starts with the bytes `n1 n2 l1 l2 l3 l4` and then holds
`L = l1 * 2^24 + l2 * 2^16 + l3 * 2^8 + l4` further bytes, `AttributeInfo::read` returns
`attribute_name_index = 256 * n1 + n2`, `attribute_length = L` and as payload exactly those
`L` bytes, and it has consumed exactly `6 + L` bytes: the stream is left at the byte after the
payload. -/
theorem attribute_read (n1 n2 l1 l2 l3 l4 : Nat) (payload rest : List Nat) (n : Nat)
    (cout cerr : Text)
    (hn1 : n1 < 256) (hn2 : n2 < 256) (hl1 : l1 < 256) (hl2 : l2 < 256) (hl3 : l3 < 256)
    (hl4 : l4 < 256)
    (hlen : payload.length = l1 * 2 ^ 24 + l2 * 2 ^ 16 + l3 * 2 ^ 8 + l4) :
    AttributeInfo.read
        { stream := { rest := n1 :: n2 :: l1 :: l2 :: l3 :: l4 :: (payload ++ rest)
                      consumed := n }
          cout := cout, cerr := cerr } =
      Res.ok
        { attribute_name_index := 256 * n1 + n2
          attribute_length := l1 * 2 ^ 24 + l2 * 2 ^ 16 + l3 * 2 ^ 8 + l4
          info := payload }
        { stream := { rest := rest
                      consumed := n + (6 + (l1 * 2 ^ 24 + l2 * 2 ^ 16 + l3 * 2 ^ 8 + l4)) }
          cout := cout, cerr := cerr } := by
  have hname := swap2_bytes n1 n2 hn1 hn2
  have hlength : swapEndianness 4 (ofBytes [l1, l2, l3, l4])
      = l1 * 2 ^ 24 + l2 * 2 ^ 16 + l3 * 2 ^ 8 + l4 := by
    rw [swap4_bytes l1 l2 l3 l4 hl1 hl2 hl3 hl4]
    omega
  have htake : List.take (l1 * 2 ^ 24 + l2 * 2 ^ 16 + l3 * 2 ^ 8 + l4) (payload ++ rest)
      = payload := by
    rw [← hlen]
    exact List.take_left' rfl
  have hdrop : List.drop (l1 * 2 ^ 24 + l2 * 2 ^ 16 + l3 * 2 ^ 8 + l4) (payload ++ rest)
      = rest := by
    rw [← hlen]
    exact List.drop_left' rfl
  simp only [AttributeInfo.read, bind_apply, readBytes, List.take, List.drop, List.length_cons,
    List.length_nil, pure_apply, hname, hlength, htake, hdrop, and_self, if_true, Nat.zero_add,
    Nat.reduceAdd]
  rw [hlen]
  have ec : n + 2 + 4 + (l1 * 2 ^ 24 + l2 * 2 ^ 16 + l3 * 2 ^ 8 + l4)
      = n + (6 + (l1 * 2 ^ 24 + l2 * 2 ^ 16 + l3 * 2 ^ 8 + l4)) := by omega
  rw [ec]

/-- C18, at the stream 00 10 00 00 00 03 0A 0B 0C 00 11: name index 16, length 3, payload
0A 0B 0C, and the next record starts at 00 11. -/
theorem attribute_read_witness :
    AttributeInfo.read
        { stream := { rest := 0 :: 16 :: 0 :: 0 :: 0 :: 3 :: ([10, 11, 12] ++ [0, 17])
                      consumed := 0 }
          cout := "", cerr := "" } =
      Res.ok
        { attribute_name_index := 256 * 0 + 16
          attribute_length := 0 * 2 ^ 24 + 0 * 2 ^ 16 + 0 * 2 ^ 8 + 3
          info := [10, 11, 12] }
        { stream := { rest := [0, 17]
                      consumed := 0 + (6 + (0 * 2 ^ 24 + 0 * 2 ^ 16 + 0 * 2 ^ 8 + 3)) }
          cout := "", cerr := "" } :=
  attribute_read 0 16 0 0 0 3 [10, 11, 12] [0, 17] 0 "" "" (by decide) (by decide) (by decide)
    (by decide) (by decide) (by decide) rfl

/-- C19 (the code at the failing input): the class file `interfaceFile` has one interface
index with the wire bytes 00 05; the constructor stores it as read, so that `interfaces[0]` is
1280, not 5.  In general the loop stores `b1 + 256 * b2` for the wire bytes `b1 b2`. -/
theorem interface_index_is_not_swapped (b1 b2 : Nat) (rest : List Nat) (n : Nat)
    (cout cerr : Text) :
    (JavaClassFile.new "A.class" (atStart interfaceFile)).fault? = none
      ∧ (parsed interfaceFile).interfaces = [1280]
      ∧ (parsed interfaceFile).header2
          = some { access_flags := 33, this_class := 2, super_class := 0, interfaces_count := 1 }
      ∧ readInterfaces 1
          { stream := { rest := b1 :: b2 :: rest, consumed := n }, cout := cout, cerr := cerr }
          = Res.ok [b1 + 256 * b2]
              { stream := { rest := rest, consumed := n + 2 }, cout := cout, cerr := cerr } := by
  refine ⟨by decide!, by decide!, by decide!, ?_⟩
  simp [readInterfaces, bind_apply, readObject, readBytes, pure_apply, ofBytes]

/-- C20: every call of `step` that returns has advanced the cursor by at least 1 and at most
3.  For every method whose Code attribute decodes to the code length `N` and in whose code no
decoded opcode is INVOKESTATIC, the run ends within the bound of the loop, in a result or in a
fault of the program, after at most `N` calls of `step`. -/
theorem run_terminates_within_code_length (d : Nat) (name : Text) (m : Machine) (p : AttrPtr)
    (s1 s0 l1 l0 n3 n2 n1 n0 : Nat) (code : List Nat)
    (hcode : HasCode m.klass name p ([s1, s0, l1, l0, n3, n2, n1, n0] ++ code))
    (h3 : n3 < 256) (h2 : n2 < 256) (h1 : n1 < 256) (h0 : n0 < 256)
    (hops : INVOKESTATIC ∉
      opcodesFrom code (16777216 * n3 + 65536 * n2 + 256 * n1 + n0)
        (16777216 * n3 + 65536 * n2 + 256 * n1 + n0) 0) :
    (∀ (run : Text → M Machine Nat) (codeptr : List Nat) (cursor : Nat) (s : Machine)
        (c1 : Nat) (s2 : Machine),
        JavaExecutor.step run codeptr cursor s = Res.ok c1 s2 →
        cursor + 1 ≤ c1 ∧ c1 ≤ cursor + 3) ∧
    (JavaExecutor.run (d + 1) name m).fault? ≠ some Fault.outOfFuel ∧
    (JavaExecutor.run (d + 1) name m).state.steps
      ≤ m.steps + (16777216 * n3 + 65536 * n2 + 256 * n1 + n0) := by
  refine ⟨?_, ?_⟩
  · intro run codeptr cursor s c1 s2 hs
    rcases step_post run codeptr cursor s c1 s2 hs with ⟨op, _, hcase⟩
    rcases hcase with ⟨_, h, _⟩ | ⟨_, h, _⟩ | ⟨_, h, _⟩ | ⟨_, h, _⟩ <;> omega
  · let info := [s1, s0, l1, l0, n3, n2, n1, n0] ++ code
    let c0 : CodeAttribute := ⟨ofBytes [s1, s0], ofBytes [l1, l0], ofBytes [n3, n2, n1, n0]⟩
    have hload : CodeAttribute.load info = some c0 := by
      simp [CodeAttribute.load, info, c0]
    rw [run_enter d name m p info c0 hcode hload]
    have hent := hasCode_entered _ _ _ _ (c0.swapFields.store info) hcode
    have hlen : c0.swapFields.code_length = 16777216 * n3 + 65536 * n2 + 256 * n1 + n0 :=
      swap4_bytes n3 n2 n1 n0 h3 h2 h1 h0
    have hdrop : info.drop 8 = code := rfl
    rw [hdrop]
    have hd : ∀ m2 : Machine, m2.klass = m.klass.setInfoAt p (c0.swapFields.store info) →
        derefCodeAttribute p m2 = Res.ok c0.swapFields m2 := by
      intro m2 hk
      exact derefCodeAttribute_eq m2 p _ _ (by rw [hk]; exact hent.2.2)
        (load_swapFields_store c0 info)
    have hbound : 16777216 * n3 + 65536 * n2 + 256 * n1 + n0 ≤ loopBound := by
      unfold loopBound
      omega
    let m0 : Machine :=
      { m with klass := m.klass.setInfoAt p (c0.swapFields.store info)
               cout := m.cout ++ ("[" ++ name ++ "] " ++ "Length of LVA: "
                         ++ Nat.repr c0.swapFields.max_locals ++ "\n") }
    have hends := loop_ends (JavaExecutor.run d) p code c0.swapFields
      (16777216 * n3 + 65536 * n2 + 256 * n1 + n0) loopBound 0 m0 (hd m0 rfl)
      (by rw [hlen]; omega) hbound (by rw [hlen]; exact hops)
    unfold Ends at hends
    show (JavaExecutor.loop (JavaExecutor.run d) p code loopBound 0 m0).fault?
          ≠ some Fault.outOfFuel ∧
        (JavaExecutor.loop (JavaExecutor.run d) p code loopBound 0 m0).state.steps
          ≤ m.steps + (16777216 * n3 + 65536 * n2 + 256 * n1 + n0)
    cases hl : JavaExecutor.loop (JavaExecutor.run d) p code loopBound 0 m0 with
    | ok c s =>
      rw [hl] at hends
      simp only at hends
      exact ⟨by simp [Res.fault?], hends⟩
    | fail e s =>
      rw [hl] at hends
      simp only at hends
      refine ⟨?_, hends.2⟩
      simp only [Res.fault?, ne_eq, Option.some.injEq]
      exact hends.1

/-- C20, at the class file `hiFile`, whose code decodes to GETSTATIC, LDC, INVOKEVIRTUAL,
RETURN: the run of `main` does not run out of the bound and makes at most 9 calls of `step`. -/
theorem run_terminates_within_code_length_witness :
    (∀ (run : Text → M Machine Nat) (codeptr : List Nat) (cursor : Nat) (s : Machine)
        (c1 : Nat) (s2 : Machine),
        JavaExecutor.step run codeptr cursor s = Res.ok c1 s2 →
        cursor + 1 ≤ c1 ∧ c1 ≤ cursor + 3) ∧
    (JavaExecutor.run (0 + 1) "main" (started hiFile)).fault? ≠ some Fault.outOfFuel ∧
    (JavaExecutor.run (0 + 1) "main" (started hiFile)).state.steps
      ≤ (started hiFile).steps + (16777216 * 0 + 65536 * 0 + 256 * 0 + 9) :=
  run_terminates_within_code_length 0 "main" (started hiFile) ⟨0, 0⟩ 0 2 0 1 0 0 0 9
    [0xB2, 0, 1, 0x12, 7, 0xB6, 0, 9, 0xB1, 0, 0, 0, 0]
    (by decide!) (by decide) (by decide) (by decide) (by decide) (by decide!)

end ZeraVM
